import Mathlib

/-!
Verification of the `solana-streamer` event-parsing core against its
natural-language specification.

The Rust source is shallowly embedded: pure decoder functions become Lean
functions over `List Nat` byte strings, the stateful walker becomes explicit
state passing, machine integers become `Nat`/`Int` (widths never overflow in
the modelled code paths: all reads are of fixed-width little-endian fields),
and fallible code returns `Option`.

A `Pubkey` (32 bytes) is represented by the natural number given by its
little-endian byte interpretation; this encoding is injective on 32-byte
arrays, and the code only ever compares pubkeys for equality or against
`Pubkey::default()` (all zeroes, encoded as `0`).

The `DexEvent` sum is embedded restricted to the variants exercised by the
verified claims (PumpSwap buy/sell, PumpFun trade/migrate, compute budget);
decoder arms producing variants outside this universe are embedded as `none`
and are never exercised by any theorem below.
-/

namespace SolanaStreamer

/-- 32-byte public key, encoded little-endian as a natural number. -/
abbrev Pubkey := Nat

/-- `Pubkey::default()`: the all-zero key. -/
def Pubkey.defaultKey : Pubkey := 0

/-- Interpret a list of bytes as a `Pubkey` (little-endian). -/
def pubkeyOfBytes (bs : List Nat) : Pubkey :=
  bs.foldr (fun b acc => b + 256 * acc) 0

/-- Little-endian interpretation of a byte list as an unsigned integer. -/
def leNat (bs : List Nat) : Nat :=
  bs.foldr (fun b acc => b + 256 * acc) 0

/-- PumpFun program id `6EF8rrecthR5Dkzon8Nwu78hRvfCKubJ14M5uBEwF6P`
    (little-endian encoding of its 32 bytes). -/
def PUMPFUN_PROGRAM_ID : Pubkey :=
  79650224810612548876544930944281671273498332280031230996724049758380118529537

/-- PumpSwap program id `pAMMBay6oceH9fJKBRHGP5D4bD4sWpmSwMn52FMfXEA`. -/
def PUMPSWAP_PROGRAM_ID : Pubkey :=
  45077411071831512970388606520796566213520122131051198958855687093029602989068

/-- Bonk program id `LanMV9sAd7wArD4vJFi2qDdfnVhFxYSUg6eADduJ3uj`. -/
def BONK_PROGRAM_ID : Pubkey :=
  15734336793898238859073643141836461228793665194152479891076588152347149665285

/-- Raydium CPMM program id `CPMMoo8L3F4NbTegBCKVNunggL7H1ZpdTHKxQB5qKP1C`. -/
def RAYDIUM_CPMM_PROGRAM_ID : Pubkey :=
  52433174684851218346863173488782096733381917884769599978850688669082044738217

/-- Raydium CLMM program id `CAMMCzo5YL8w4VFF8KVHrK22GGUsp5VTaW7grrKgrWqK`. -/
def RAYDIUM_CLMM_PROGRAM_ID : Pubkey :=
  13683682604976703740344639738092640804383757108029828145798290711002032559525

/-- Raydium AMM v4 program id `675kPX9MHTjS2zt1qfr1NYHuzeLXfQM9H24wFSUt1Mp8`. -/
def RAYDIUM_AMM_V4_PROGRAM_ID : Pubkey :=
  92969221671672447066119433617333859573911893755251327420948570491369600702795

/-- Meteora DAMM v2 program id `cpamdpZCGKUy5JxQXB4dcpGPiikHawvSWAd6mEn1sGG`.
    Modelled from the spec: the `meteora_damm_v2` module is absent from `src/`;
    only the well-known program id constant is needed (for protocol matching). -/
def METEORA_DAMM_V2_PROGRAM_ID : Pubkey :=
  107358881400772515541616437343812947065908877301149916740799838897753387248905

/-- Meteora DLMM program id `LBUZKhRxPF3XUpBCjp4YzTKgLccjZhTSDM9YuVaPwxo`. -/
def METEORA_DLMM_PROGRAM_ID : Pubkey :=
  85346005064901035260837218429895067658408182237806649244386764562559131576580

/-- Whirlpool program id `whirLbMiicVdio4qvUfM5KAg6Ct8VwpYzGff3uctyCc`. -/
def WHIRLPOOL_PROGRAM_ID : Pubkey :=
  76655489289326701707528209922026882990122210892313098509650376377679724675854

/-- Compute-budget program id `ComputeBudget111111111111111111111111111111`.
    Modelled from the spec: `common_event_parser.rs` is absent from `src/`;
    the spec calls it "a well-known system id, not a DEX". -/
def COMPUTE_BUDGET_PROGRAM_ID : Pubkey :=
  1731608570859680351256770061668080106359286076089926184483795371427331

/-- Closed enumeration of supported DEX protocols (`Protocol` in the source). -/
inductive Protocol where
  | PumpFun
  | PumpSwap
  | Bonk
  | RaydiumCpmm
  | RaydiumClmm
  | RaydiumAmmV4
  | MeteoraDammV2
  | MeteoraDlmm
  | Whirlpool
deriving DecidableEq, Repr

/-- `ProtocolType` tag stored in event metadata. -/
inductive ProtocolType where
  | PumpSwap
  | PumpFun
  | Bonk
  | RaydiumCpmm
  | RaydiumClmm
  | RaydiumAmmV4
  | MeteoraDammV2
  | MeteoraDlmm
  | Whirlpool
  | Common
deriving DecidableEq, Repr

instance : Inhabited ProtocolType := ⟨ProtocolType.PumpSwap⟩

/-- `EventType`, restricted to the constructors this development exercises
    (the source enumeration has one constructor per protocol event and
    account kind; the omitted constructors label event variants outside the
    embedded `DexEvent` universe). `PumpSwapBuy` is the source's
    `#[default]` variant. -/
inductive EventType where
  | PumpSwapBuy
  | PumpSwapSell
  | PumpFunBuy
  | PumpFunSell
  | PumpFunMigrate
  | SetComputeUnitLimit
  | SetComputeUnitPrice
  | Unknown
deriving DecidableEq, Repr

instance : Inhabited EventType := ⟨EventType.PumpSwapBuy⟩

/-- Event-type filter: events whose type is in `include_types` pass.
    (Field named `include` in the source; renamed because `include` is a
    Lean keyword.) -/
structure EventTypeFilter where
  include_types : List EventType
deriving DecidableEq, Repr

/-- Optional swap summary attached to event metadata. -/
structure SwapData where
  from_mint : Pubkey
  to_mint : Pubkey
  from_amount : Nat
  to_amount : Nat
  description : Option String
deriving DecidableEq, Repr

/-- Timestamp frame field (`prost_types::Timestamp`). -/
structure Timestamp where
  seconds : Int
  nanos : Int
deriving DecidableEq, Repr

/-- `EventMetadata`, attached to every emitted event. Signatures (64 bytes)
    are represented abstractly by a natural number; `i64` counters that the
    claims never constrain are represented by `Int`. -/
structure EventMetadata where
  signature : Nat
  slot : Nat
  transaction_index : Option Nat
  block_time : Int
  block_time_ms : Int
  recv_us : Int
  handle_us : Int
  protocol : ProtocolType
  event_type : EventType
  program_id : Pubkey
  swap_data : Option SwapData
  outer_index : Int
  inner_index : Option Int
  is_arb_leg : Bool
deriving DecidableEq, Repr

instance : Inhabited EventMetadata :=
  ⟨{ signature := 0, slot := 0, transaction_index := none, block_time := 0,
     block_time_ms := 0, recv_us := 0, handle_us := 0,
     protocol := default, event_type := default, program_id := 0,
     swap_data := none, outer_index := 0, inner_index := none,
     is_arb_leg := false }⟩

/-- `EventMetadata::new`. -/
def EventMetadata.new (signature : Nat) (slot : Nat) (block_time : Int)
    (block_time_ms : Int) (protocol : ProtocolType) (event_type : EventType)
    (program_id : Pubkey) (outer_index : Int) (inner_index : Option Int)
    (recv_us : Int) (transaction_index : Option Nat) : EventMetadata :=
  { signature := signature, slot := slot, block_time := block_time,
    block_time_ms := block_time_ms, recv_us := recv_us, handle_us := 0,
    protocol := protocol, event_type := event_type, program_id := program_id,
    swap_data := none, outer_index := outer_index, inner_index := inner_index,
    transaction_index := transaction_index, is_arb_leg := false }

/-- Modelled from the spec: `high_performance_clock::elapsed_micros_since`
    (absent from `src/`) reads the wall clock; real time is outside this
    model, so the elapsed value is represented by `0`. No verified claim
    constrains `handle_us`. -/
def elapsed_micros_since (_recv_us : Int) : Int := 0

/-- `PumpSwapBuyEvent` (protocols/pumpswap/events.rs), every field.
    `u64` fields are `Nat`; `i64` fields are represented by their unsigned
    64-bit encoding as `Nat` (a bijection, only ever copied or compared). -/
structure PumpSwapBuyEvent where
  metadata : EventMetadata
  timestamp : Nat
  base_amount_out : Nat
  max_quote_amount_in : Nat
  user_base_token_reserves : Nat
  user_quote_token_reserves : Nat
  pool_base_token_reserves : Nat
  pool_quote_token_reserves : Nat
  quote_amount_in : Nat
  lp_fee_basis_points : Nat
  lp_fee : Nat
  protocol_fee_basis_points : Nat
  protocol_fee : Nat
  quote_amount_in_with_lp_fee : Nat
  user_quote_amount_in : Nat
  pool : Pubkey
  user : Pubkey
  user_base_token_account : Pubkey
  user_quote_token_account : Pubkey
  protocol_fee_recipient : Pubkey
  protocol_fee_recipient_token_account : Pubkey
  coin_creator : Pubkey
  coin_creator_fee_basis_points : Nat
  coin_creator_fee : Nat
  track_volume : Bool
  total_unclaimed_tokens : Nat
  total_claimed_tokens : Nat
  current_sol_volume : Nat
  last_update_timestamp : Nat
  base_mint : Pubkey
  quote_mint : Pubkey
  pool_base_token_account : Pubkey
  pool_quote_token_account : Pubkey
  coin_creator_vault_ata : Pubkey
  coin_creator_vault_authority : Pubkey
  base_token_program : Pubkey
  quote_token_program : Pubkey
deriving DecidableEq, Repr

instance : Inhabited PumpSwapBuyEvent :=
  ⟨{ metadata := default, timestamp := 0, base_amount_out := 0,
     max_quote_amount_in := 0, user_base_token_reserves := 0,
     user_quote_token_reserves := 0, pool_base_token_reserves := 0,
     pool_quote_token_reserves := 0, quote_amount_in := 0,
     lp_fee_basis_points := 0, lp_fee := 0, protocol_fee_basis_points := 0,
     protocol_fee := 0, quote_amount_in_with_lp_fee := 0,
     user_quote_amount_in := 0, pool := 0, user := 0,
     user_base_token_account := 0, user_quote_token_account := 0,
     protocol_fee_recipient := 0, protocol_fee_recipient_token_account := 0,
     coin_creator := 0, coin_creator_fee_basis_points := 0,
     coin_creator_fee := 0, track_volume := false,
     total_unclaimed_tokens := 0, total_claimed_tokens := 0,
     current_sol_volume := 0, last_update_timestamp := 0, base_mint := 0,
     quote_mint := 0, pool_base_token_account := 0,
     pool_quote_token_account := 0, coin_creator_vault_ata := 0,
     coin_creator_vault_authority := 0, base_token_program := 0,
     quote_token_program := 0 }⟩

/-- `PumpSwapSellEvent` (protocols/pumpswap/events.rs), every field. -/
structure PumpSwapSellEvent where
  metadata : EventMetadata
  timestamp : Nat
  base_amount_in : Nat
  min_quote_amount_out : Nat
  user_base_token_reserves : Nat
  user_quote_token_reserves : Nat
  pool_base_token_reserves : Nat
  pool_quote_token_reserves : Nat
  quote_amount_out : Nat
  lp_fee_basis_points : Nat
  lp_fee : Nat
  protocol_fee_basis_points : Nat
  protocol_fee : Nat
  quote_amount_out_without_lp_fee : Nat
  user_quote_amount_out : Nat
  pool : Pubkey
  user : Pubkey
  user_base_token_account : Pubkey
  user_quote_token_account : Pubkey
  protocol_fee_recipient : Pubkey
  protocol_fee_recipient_token_account : Pubkey
  coin_creator : Pubkey
  coin_creator_fee_basis_points : Nat
  coin_creator_fee : Nat
  base_mint : Pubkey
  quote_mint : Pubkey
  pool_base_token_account : Pubkey
  pool_quote_token_account : Pubkey
  coin_creator_vault_ata : Pubkey
  coin_creator_vault_authority : Pubkey
  base_token_program : Pubkey
  quote_token_program : Pubkey
deriving DecidableEq, Repr

instance : Inhabited PumpSwapSellEvent :=
  ⟨{ metadata := default, timestamp := 0, base_amount_in := 0,
     min_quote_amount_out := 0, user_base_token_reserves := 0,
     user_quote_token_reserves := 0, pool_base_token_reserves := 0,
     pool_quote_token_reserves := 0, quote_amount_out := 0,
     lp_fee_basis_points := 0, lp_fee := 0, protocol_fee_basis_points := 0,
     protocol_fee := 0, quote_amount_out_without_lp_fee := 0,
     user_quote_amount_out := 0, pool := 0, user := 0,
     user_base_token_account := 0, user_quote_token_account := 0,
     protocol_fee_recipient := 0, protocol_fee_recipient_token_account := 0,
     coin_creator := 0, coin_creator_fee_basis_points := 0,
     coin_creator_fee := 0, base_mint := 0, quote_mint := 0,
     pool_base_token_account := 0, pool_quote_token_account := 0,
     coin_creator_vault_ata := 0, coin_creator_vault_authority := 0,
     base_token_program := 0, quote_token_program := 0 }⟩

/-- `PumpFunTradeEvent` (protocols/pumpfun/events.rs), every field. -/
structure PumpFunTradeEvent where
  metadata : EventMetadata
  mint : Pubkey
  sol_amount : Nat
  token_amount : Nat
  is_buy : Bool
  user : Pubkey
  timestamp : Nat
  virtual_sol_reserves : Nat
  virtual_token_reserves : Nat
  real_sol_reserves : Nat
  real_token_reserves : Nat
  fee_recipient : Pubkey
  fee_basis_points : Nat
  fee : Nat
  creator : Pubkey
  creator_fee_basis_points : Nat
  creator_fee : Nat
  track_volume : Bool
  total_unclaimed_tokens : Nat
  total_claimed_tokens : Nat
  current_sol_volume : Nat
  last_update_timestamp : Nat
  max_sol_cost : Nat
  min_sol_output : Nat
  amount : Nat
  is_bot : Bool
  is_dev_create_token_trade : Bool
  global : Pubkey
  bonding_curve : Pubkey
  associated_bonding_curve : Pubkey
  associated_user : Pubkey
  system_program : Pubkey
  token_program : Pubkey
  creator_vault : Pubkey
  event_authority : Pubkey
  program : Pubkey
  global_volume_accumulator : Pubkey
  user_volume_accumulator : Pubkey
  fee_config : Pubkey
  fee_program : Pubkey
deriving DecidableEq, Repr

instance : Inhabited PumpFunTradeEvent :=
  ⟨{ metadata := default, mint := 0, sol_amount := 0, token_amount := 0,
     is_buy := false, user := 0, timestamp := 0, virtual_sol_reserves := 0,
     virtual_token_reserves := 0, real_sol_reserves := 0,
     real_token_reserves := 0, fee_recipient := 0, fee_basis_points := 0,
     fee := 0, creator := 0, creator_fee_basis_points := 0, creator_fee := 0,
     track_volume := false, total_unclaimed_tokens := 0,
     total_claimed_tokens := 0, current_sol_volume := 0,
     last_update_timestamp := 0, max_sol_cost := 0, min_sol_output := 0,
     amount := 0, is_bot := false, is_dev_create_token_trade := false,
     global := 0, bonding_curve := 0, associated_bonding_curve := 0,
     associated_user := 0, system_program := 0, token_program := 0,
     creator_vault := 0, event_authority := 0, program := 0,
     global_volume_accumulator := 0, user_volume_accumulator := 0,
     fee_config := 0, fee_program := 0 }⟩

/-- `PumpFunMigrateEvent` (protocols/pumpfun/events.rs), every field. -/
structure PumpFunMigrateEvent where
  metadata : EventMetadata
  user : Pubkey
  mint : Pubkey
  mint_amount : Nat
  sol_amount : Nat
  pool_migration_fee : Nat
  bonding_curve : Pubkey
  timestamp : Nat
  pool : Pubkey
  global : Pubkey
  withdraw_authority : Pubkey
  associated_bonding_curve : Pubkey
  system_program : Pubkey
  token_program : Pubkey
  pump_amm : Pubkey
  pool_authority : Pubkey
  pool_authority_mint_account : Pubkey
  pool_authority_wsol_account : Pubkey
  amm_global_config : Pubkey
  wsol_mint : Pubkey
  lp_mint : Pubkey
  user_pool_token_account : Pubkey
  pool_base_token_account : Pubkey
  pool_quote_token_account : Pubkey
  token_2022_program : Pubkey
  associated_token_program : Pubkey
  pump_amm_event_authority : Pubkey
  event_authority : Pubkey
  program : Pubkey
deriving DecidableEq, Repr

instance : Inhabited PumpFunMigrateEvent :=
  ⟨{ metadata := default, user := 0, mint := 0, mint_amount := 0,
     sol_amount := 0, pool_migration_fee := 0, bonding_curve := 0,
     timestamp := 0, pool := 0, global := 0, withdraw_authority := 0,
     associated_bonding_curve := 0, system_program := 0, token_program := 0,
     pump_amm := 0, pool_authority := 0, pool_authority_mint_account := 0,
     pool_authority_wsol_account := 0, amm_global_config := 0, wsol_mint := 0,
     lp_mint := 0, user_pool_token_account := 0, pool_base_token_account := 0,
     pool_quote_token_account := 0, token_2022_program := 0,
     associated_token_program := 0, pump_amm_event_authority := 0,
     event_authority := 0, program := 0 }⟩

/-- Modelled from the spec: compute-budget events (`common_event_parser.rs`
    is absent from `src/`). The spec requires one of
    `{SetComputeUnitLimit, SetComputeUnitPrice}` with `protocol = Common`;
    `value` carries the decoded limit or price. -/
structure ComputeBudgetEvent where
  metadata : EventMetadata
  value : Nat
deriving DecidableEq, Repr

/-- `DexEvent`: the tagged sum of event payloads, restricted to the variants
    exercised by the verified claims (see the file header). -/
inductive DexEvent where
  | PumpSwapBuyEvent (e : PumpSwapBuyEvent)
  | PumpSwapSellEvent (e : PumpSwapSellEvent)
  | PumpFunTradeEvent (e : PumpFunTradeEvent)
  | PumpFunMigrateEvent (e : PumpFunMigrateEvent)
  | ComputeBudgetEvent (e : ComputeBudgetEvent)
deriving DecidableEq, Repr

/-- `DexEvent::metadata()`. -/
def DexEvent.metadata : DexEvent → EventMetadata
  | .PumpSwapBuyEvent e => e.metadata
  | .PumpSwapSellEvent e => e.metadata
  | .PumpFunTradeEvent e => e.metadata
  | .PumpFunMigrateEvent e => e.metadata
  | .ComputeBudgetEvent e => e.metadata

/-- Update an event's metadata in place (`DexEvent::metadata_mut()`). -/
def DexEvent.mapMetadata (f : EventMetadata → EventMetadata) : DexEvent → DexEvent
  | .PumpSwapBuyEvent e => .PumpSwapBuyEvent { e with metadata := f e.metadata }
  | .PumpSwapSellEvent e => .PumpSwapSellEvent { e with metadata := f e.metadata }
  | .PumpFunTradeEvent e => .PumpFunTradeEvent { e with metadata := f e.metadata }
  | .PumpFunMigrateEvent e => .PumpFunMigrateEvent { e with metadata := f e.metadata }
  | .ComputeBudgetEvent e => .ComputeBudgetEvent { e with metadata := f e.metadata }

/-- Modelled from the spec: `read_u64_le` lives in `common/utils.rs`, absent
    from `src/`. Per the spec, decoders "read little-endian fields at fixed
    offsets" and return `None` when the payload is too short. -/
def read_u64_le (data : List Nat) (offset : Nat) : Option Nat :=
  if offset + 8 ≤ data.length then some (leNat ((data.drop offset).take 8))
  else none

/-- The `len`-byte slice of `data` starting at `offset`. -/
def bytesAt (data : List Nat) (offset len : Nat) : List Nat :=
  (data.drop offset).take len

/-- Borsh `u64` (or the unsigned encoding of `i64`) at a fixed offset;
    callers establish the length bound first, as the Rust decoders do. -/
def readU64 (data : List Nat) (offset : Nat) : Nat :=
  leNat (bytesAt data offset 8)

/-- Borsh `Pubkey` (32 bytes) at a fixed offset. -/
def readPk (data : List Nat) (offset : Nat) : Pubkey :=
  pubkeyOfBytes (bytesAt data offset 32)

/-- Borsh `bool`: one byte that must be `0` or `1`, otherwise the whole
    decode fails. -/
def readBorshBool (data : List Nat) (offset : Nat) : Option Bool :=
  match data.get? offset with
  | some 0 => some false
  | some 1 => some true
  | _ => none

namespace PumpSwap

/-- `discriminators::BUY_IX`. -/
def BUY_IX : List Nat := [102, 6, 61, 18, 1, 218, 235, 234]
/-- `discriminators::SELL_IX`. -/
def SELL_IX : List Nat := [51, 230, 133, 164, 1, 127, 131, 173]
/-- `discriminators::CREATE_POOL_IX`. -/
def CREATE_POOL_IX : List Nat := [233, 146, 209, 142, 207, 104, 64, 188]
/-- `discriminators::DEPOSIT_IX`. -/
def DEPOSIT_IX : List Nat := [242, 35, 198, 137, 82, 225, 242, 182]
/-- `discriminators::WITHDRAW_IX`. -/
def WITHDRAW_IX : List Nat := [183, 18, 70, 156, 148, 109, 161, 34]
/-- `discriminators::BUY_EVENT` (16-byte composite). -/
def BUY_EVENT : List Nat :=
  [228, 69, 165, 46, 81, 203, 154, 29, 103, 244, 82, 31, 44, 245, 119, 119]
/-- `discriminators::SELL_EVENT` (16-byte composite). -/
def SELL_EVENT : List Nat :=
  [228, 69, 165, 46, 81, 203, 154, 29, 62, 47, 55, 10, 165, 3, 220, 42]

/-- `PUMP_SWAP_BUY_EVENT_LOG_SIZE`. -/
def PUMP_SWAP_BUY_EVENT_LOG_SIZE : Nat := 385
/-- `PUMP_SWAP_SELL_EVENT_LOG_SIZE`. -/
def PUMP_SWAP_SELL_EVENT_LOG_SIZE : Nat := 352

/-- `pump_swap_buy_event_log_decode`: borsh-decode of the non-skip fields of
    `PumpSwapBuyEvent` from the first 385 bytes (fails when the data is
    shorter, or the `track_volume` bool byte is not 0/1). Skipped fields and
    the metadata take their `Default` values. -/
def pump_swap_buy_event_log_decode (data : List Nat) : Option PumpSwapBuyEvent :=
  if data.length < PUMP_SWAP_BUY_EVENT_LOG_SIZE then none
  else
    match readBorshBool data 352 with
    | none => none
    | some track_volume =>
      some { (default : PumpSwapBuyEvent) with
        timestamp := readU64 data 0
        base_amount_out := readU64 data 8
        max_quote_amount_in := readU64 data 16
        user_base_token_reserves := readU64 data 24
        user_quote_token_reserves := readU64 data 32
        pool_base_token_reserves := readU64 data 40
        pool_quote_token_reserves := readU64 data 48
        quote_amount_in := readU64 data 56
        lp_fee_basis_points := readU64 data 64
        lp_fee := readU64 data 72
        protocol_fee_basis_points := readU64 data 80
        protocol_fee := readU64 data 88
        quote_amount_in_with_lp_fee := readU64 data 96
        user_quote_amount_in := readU64 data 104
        pool := readPk data 112
        user := readPk data 144
        user_base_token_account := readPk data 176
        user_quote_token_account := readPk data 208
        protocol_fee_recipient := readPk data 240
        protocol_fee_recipient_token_account := readPk data 272
        coin_creator := readPk data 304
        coin_creator_fee_basis_points := readU64 data 336
        coin_creator_fee := readU64 data 344
        track_volume := track_volume
        total_unclaimed_tokens := readU64 data 353
        total_claimed_tokens := readU64 data 361
        current_sol_volume := readU64 data 369
        last_update_timestamp := readU64 data 377 }

/-- `pump_swap_sell_event_log_decode`: borsh-decode of the non-skip fields of
    `PumpSwapSellEvent` from the first 352 bytes. -/
def pump_swap_sell_event_log_decode (data : List Nat) : Option PumpSwapSellEvent :=
  if data.length < PUMP_SWAP_SELL_EVENT_LOG_SIZE then none
  else
    some { (default : PumpSwapSellEvent) with
      timestamp := readU64 data 0
      base_amount_in := readU64 data 8
      min_quote_amount_out := readU64 data 16
      user_base_token_reserves := readU64 data 24
      user_quote_token_reserves := readU64 data 32
      pool_base_token_reserves := readU64 data 40
      pool_quote_token_reserves := readU64 data 48
      quote_amount_out := readU64 data 56
      lp_fee_basis_points := readU64 data 64
      lp_fee := readU64 data 72
      protocol_fee_basis_points := readU64 data 80
      protocol_fee := readU64 data 88
      quote_amount_out_without_lp_fee := readU64 data 96
      user_quote_amount_out := readU64 data 104
      pool := readPk data 112
      user := readPk data 144
      user_base_token_account := readPk data 176
      user_quote_token_account := readPk data 208
      protocol_fee_recipient := readPk data 240
      protocol_fee_recipient_token_account := readPk data 272
      coin_creator := readPk data 304
      coin_creator_fee_basis_points := readU64 data 336
      coin_creator_fee := readU64 data 344 }

/-- `parse_buy_inner_instruction` (pumpswap/parser.rs). -/
def parse_buy_inner_instruction (data : List Nat) (metadata : EventMetadata) :
    Option DexEvent :=
  match pump_swap_buy_event_log_decode data with
  | some event => some (.PumpSwapBuyEvent { event with metadata := metadata })
  | none => none

/-- `parse_sell_inner_instruction` (pumpswap/parser.rs). -/
def parse_sell_inner_instruction (data : List Nat) (metadata : EventMetadata) :
    Option DexEvent :=
  match pump_swap_sell_event_log_decode data with
  | some event => some (.PumpSwapSellEvent { event with metadata := metadata })
  | none => none

/-- `parse_buy_instruction` (pumpswap/parser.rs): decode the Buy instruction
    payload and positional accounts. -/
def parse_buy_instruction (data : List Nat) (accounts : List Pubkey)
    (metadata : EventMetadata) : Option DexEvent :=
  let metadata := { metadata with event_type := EventType.PumpSwapBuy }
  if data.length < 16 ∨ accounts.length < 13 then none
  else
    match read_u64_le data 0, read_u64_le data 8 with
    | some base_amount_out, some max_quote_amount_in =>
      some (.PumpSwapBuyEvent { (default : PumpSwapBuyEvent) with
        metadata := metadata
        base_amount_out := base_amount_out
        max_quote_amount_in := max_quote_amount_in
        pool := accounts.getD 0 0
        user := accounts.getD 1 0
        base_mint := accounts.getD 3 0
        quote_mint := accounts.getD 4 0
        user_base_token_account := accounts.getD 5 0
        user_quote_token_account := accounts.getD 6 0
        pool_base_token_account := accounts.getD 7 0
        pool_quote_token_account := accounts.getD 8 0
        protocol_fee_recipient := accounts.getD 9 0
        protocol_fee_recipient_token_account := accounts.getD 10 0
        base_token_program := accounts.getD 11 0
        quote_token_program := accounts.getD 12 0
        coin_creator_vault_ata := accounts.getD 17 0
        coin_creator_vault_authority := accounts.getD 18 0 })
    | _, _ => none

/-- `parse_sell_instruction` (pumpswap/parser.rs). -/
def parse_sell_instruction (data : List Nat) (accounts : List Pubkey)
    (metadata : EventMetadata) : Option DexEvent :=
  let metadata := { metadata with event_type := EventType.PumpSwapSell }
  if data.length < 16 ∨ accounts.length < 13 then none
  else
    match read_u64_le data 0, read_u64_le data 8 with
    | some base_amount_in, some min_quote_amount_out =>
      some (.PumpSwapSellEvent { (default : PumpSwapSellEvent) with
        metadata := metadata
        base_amount_in := base_amount_in
        min_quote_amount_out := min_quote_amount_out
        pool := accounts.getD 0 0
        user := accounts.getD 1 0
        base_mint := accounts.getD 3 0
        quote_mint := accounts.getD 4 0
        user_base_token_account := accounts.getD 5 0
        user_quote_token_account := accounts.getD 6 0
        pool_base_token_account := accounts.getD 7 0
        pool_quote_token_account := accounts.getD 8 0
        protocol_fee_recipient := accounts.getD 9 0
        protocol_fee_recipient_token_account := accounts.getD 10 0
        base_token_program := accounts.getD 11 0
        quote_token_program := accounts.getD 12 0
        coin_creator_vault_ata := accounts.getD 17 0
        coin_creator_vault_authority := accounts.getD 18 0 })
    | _, _ => none

/-- `parse_pumpswap_instruction_data`: route by 8-byte discriminator. The
    `CREATE_POOL_IX`/`DEPOSIT_IX`/`WITHDRAW_IX` arms produce event variants
    outside the embedded universe and are represented by `none`; no theorem
    below exercises them. -/
def parse_pumpswap_instruction_data (discriminator data : List Nat)
    (accounts : List Pubkey) (metadata : EventMetadata) : Option DexEvent :=
  if discriminator = BUY_IX then parse_buy_instruction data accounts metadata
  else if discriminator = SELL_IX then parse_sell_instruction data accounts metadata
  else none

/-- `parse_pumpswap_inner_instruction_data`: route by 16-byte discriminator.
    The `CREATE_POOL_EVENT`/`DEPOSIT_EVENT`/`WITHDRAW_EVENT` arms produce
    variants outside the embedded universe and are represented by `none`. -/
def parse_pumpswap_inner_instruction_data (discriminator data : List Nat)
    (metadata : EventMetadata) : Option DexEvent :=
  if discriminator = BUY_EVENT then parse_buy_inner_instruction data metadata
  else if discriminator = SELL_EVENT then parse_sell_inner_instruction data metadata
  else none

end PumpSwap

namespace PumpFun

/-- `discriminators::BUY_IX` (pumpfun/events.rs). -/
def BUY_IX : List Nat := [102, 6, 61, 18, 1, 218, 235, 234]
/-- `discriminators::SELL_IX`. -/
def SELL_IX : List Nat := [51, 230, 133, 164, 1, 127, 131, 173]
/-- `discriminators::MIGRATE_IX`. -/
def MIGRATE_IX : List Nat := [155, 234, 231, 146, 236, 158, 162, 30]
/-- `discriminators::CREATE_TOKEN_IX`. -/
def CREATE_TOKEN_IX : List Nat := [24, 30, 200, 40, 5, 28, 7, 119]
/-- `discriminators::CREATE_V2_TOKEN_IX`. -/
def CREATE_V2_TOKEN_IX : List Nat := [214, 144, 76, 236, 95, 139, 49, 180]
/-- `discriminators::TRADE_EVENT` (16-byte composite). -/
def TRADE_EVENT : List Nat :=
  [228, 69, 165, 46, 81, 203, 154, 29, 189, 219, 127, 211, 78, 230, 97, 238]
/-- `discriminators::CREATE_TOKEN_EVENT` (16-byte composite). -/
def CREATE_TOKEN_EVENT : List Nat :=
  [228, 69, 165, 46, 81, 203, 154, 29, 27, 114, 169, 77, 222, 235, 99, 118]
/-- `discriminators::COMPLETE_PUMP_AMM_MIGRATION_EVENT` (16-byte composite). -/
def COMPLETE_PUMP_AMM_MIGRATION_EVENT : List Nat :=
  [228, 69, 165, 46, 81, 203, 154, 29, 189, 233, 93, 185, 92, 148, 234, 148]

/-- `PUMPFUN_TRADE_EVENT_LOG_SIZE`. -/
def PUMPFUN_TRADE_EVENT_LOG_SIZE : Nat := 250
/-- `PUMPFUN_MIGRATE_EVENT_LOG_SIZE`. -/
def PUMPFUN_MIGRATE_EVENT_LOG_SIZE : Nat := 160

/-- `pumpfun_trade_event_log_decode`: borsh-decode of the non-skip fields of
    `PumpFunTradeEvent` from the first 250 bytes (the two bool bytes at
    offsets 48 and 217 must be 0/1). -/
def pumpfun_trade_event_log_decode (data : List Nat) : Option PumpFunTradeEvent :=
  if data.length < PUMPFUN_TRADE_EVENT_LOG_SIZE then none
  else
    match readBorshBool data 48, readBorshBool data 217 with
    | some is_buy, some track_volume =>
      some { (default : PumpFunTradeEvent) with
        mint := readPk data 0
        sol_amount := readU64 data 32
        token_amount := readU64 data 40
        is_buy := is_buy
        user := readPk data 49
        timestamp := readU64 data 81
        virtual_sol_reserves := readU64 data 89
        virtual_token_reserves := readU64 data 97
        real_sol_reserves := readU64 data 105
        real_token_reserves := readU64 data 113
        fee_recipient := readPk data 121
        fee_basis_points := readU64 data 153
        fee := readU64 data 161
        creator := readPk data 169
        creator_fee_basis_points := readU64 data 201
        creator_fee := readU64 data 209
        track_volume := track_volume
        total_unclaimed_tokens := readU64 data 218
        total_claimed_tokens := readU64 data 226
        current_sol_volume := readU64 data 234
        last_update_timestamp := readU64 data 242 }
    | _, _ => none

/-- `pumpfun_migrate_event_log_decode`: borsh-decode of the non-skip fields
    of `PumpFunMigrateEvent` from the first 160 bytes (no bool fields, so
    the decode succeeds whenever enough bytes are present). -/
def pumpfun_migrate_event_log_decode (data : List Nat) : Option PumpFunMigrateEvent :=
  if data.length < PUMPFUN_MIGRATE_EVENT_LOG_SIZE then none
  else
    some { (default : PumpFunMigrateEvent) with
      user := readPk data 0
      mint := readPk data 32
      mint_amount := readU64 data 64
      sol_amount := readU64 data 72
      pool_migration_fee := readU64 data 80
      bonding_curve := readPk data 88
      timestamp := readU64 data 120
      pool := readPk data 128 }

/-- `parse_trade_inner_instruction` (pumpfun/parser.rs): the trade event CPI
    does not set `event_type` (it is merged into an instruction event that
    already carries the right one). -/
def parse_trade_inner_instruction (data : List Nat) (metadata : EventMetadata) :
    Option DexEvent :=
  match pumpfun_trade_event_log_decode data with
  | some event => some (.PumpFunTradeEvent { event with metadata := metadata })
  | none => none

/-- `parse_migrate_inner_instruction` (pumpfun/parser.rs). -/
def parse_migrate_inner_instruction (data : List Nat) (metadata : EventMetadata) :
    Option DexEvent :=
  let metadata := { metadata with event_type := EventType.PumpFunMigrate }
  match pumpfun_migrate_event_log_decode data with
  | some event => some (.PumpFunMigrateEvent { event with metadata := metadata })
  | none => none

/-- `parse_buy_instruction` (pumpfun/parser.rs). -/
def parse_buy_instruction (data : List Nat) (accounts : List Pubkey)
    (metadata : EventMetadata) : Option DexEvent :=
  let metadata := { metadata with event_type := EventType.PumpFunBuy }
  if data.length < 16 ∨ accounts.length < 16 then none
  else
    some (.PumpFunTradeEvent { (default : PumpFunTradeEvent) with
      metadata := metadata
      global := accounts.getD 0 0
      fee_recipient := accounts.getD 1 0
      mint := accounts.getD 2 0
      bonding_curve := accounts.getD 3 0
      associated_bonding_curve := accounts.getD 4 0
      associated_user := accounts.getD 5 0
      user := accounts.getD 6 0
      system_program := accounts.getD 7 0
      token_program := accounts.getD 8 0
      creator_vault := accounts.getD 9 0
      event_authority := accounts.getD 10 0
      program := accounts.getD 11 0
      global_volume_accumulator := accounts.getD 12 0
      user_volume_accumulator := accounts.getD 13 0
      fee_config := accounts.getD 14 0
      fee_program := accounts.getD 15 0
      max_sol_cost := readU64 data 8
      amount := readU64 data 0
      is_buy := true })

/-- `parse_sell_instruction` (pumpfun/parser.rs). -/
def parse_sell_instruction (data : List Nat) (accounts : List Pubkey)
    (metadata : EventMetadata) : Option DexEvent :=
  let metadata := { metadata with event_type := EventType.PumpFunSell }
  if data.length < 16 ∨ accounts.length < 14 then none
  else
    some (.PumpFunTradeEvent { (default : PumpFunTradeEvent) with
      metadata := metadata
      global := accounts.getD 0 0
      fee_recipient := accounts.getD 1 0
      mint := accounts.getD 2 0
      bonding_curve := accounts.getD 3 0
      associated_bonding_curve := accounts.getD 4 0
      associated_user := accounts.getD 5 0
      user := accounts.getD 6 0
      system_program := accounts.getD 7 0
      creator_vault := accounts.getD 8 0
      token_program := accounts.getD 9 0
      event_authority := accounts.getD 10 0
      program := accounts.getD 11 0
      global_volume_accumulator := Pubkey.defaultKey
      user_volume_accumulator := Pubkey.defaultKey
      fee_config := accounts.getD 12 0
      fee_program := accounts.getD 13 0
      min_sol_output := readU64 data 8
      amount := readU64 data 0
      is_buy := false })

/-- `parse_migrate_instruction` (pumpfun/parser.rs): payload is unused; 24
    positional accounts are required. -/
def parse_migrate_instruction (_data : List Nat) (accounts : List Pubkey)
    (metadata : EventMetadata) : Option DexEvent :=
  let metadata := { metadata with event_type := EventType.PumpFunMigrate }
  if accounts.length < 24 then none
  else
    some (.PumpFunMigrateEvent { (default : PumpFunMigrateEvent) with
      metadata := metadata
      global := accounts.getD 0 0
      withdraw_authority := accounts.getD 1 0
      mint := accounts.getD 2 0
      bonding_curve := accounts.getD 3 0
      associated_bonding_curve := accounts.getD 4 0
      user := accounts.getD 5 0
      system_program := accounts.getD 6 0
      token_program := accounts.getD 7 0
      pump_amm := accounts.getD 8 0
      pool := accounts.getD 9 0
      pool_authority := accounts.getD 10 0
      pool_authority_mint_account := accounts.getD 11 0
      pool_authority_wsol_account := accounts.getD 12 0
      amm_global_config := accounts.getD 13 0
      wsol_mint := accounts.getD 14 0
      lp_mint := accounts.getD 15 0
      user_pool_token_account := accounts.getD 16 0
      pool_base_token_account := accounts.getD 17 0
      pool_quote_token_account := accounts.getD 18 0
      token_2022_program := accounts.getD 19 0
      associated_token_program := accounts.getD 20 0
      pump_amm_event_authority := accounts.getD 21 0
      event_authority := accounts.getD 22 0
      program := accounts.getD 23 0 })

/-- `parse_pumpfun_instruction_data`: route by 8-byte discriminator. The
    `CREATE_TOKEN_IX`/`CREATE_V2_TOKEN_IX` arms produce variants outside the
    embedded universe and are represented by `none`. -/
def parse_pumpfun_instruction_data (discriminator data : List Nat)
    (accounts : List Pubkey) (metadata : EventMetadata) : Option DexEvent :=
  if discriminator = BUY_IX then parse_buy_instruction data accounts metadata
  else if discriminator = SELL_IX then parse_sell_instruction data accounts metadata
  else if discriminator = MIGRATE_IX then parse_migrate_instruction data accounts metadata
  else none

/-- `parse_pumpfun_inner_instruction_data`: route by 16-byte discriminator.
    The `CREATE_TOKEN_EVENT` arm produces a variant outside the embedded
    universe and is represented by `none`. -/
def parse_pumpfun_inner_instruction_data (discriminator data : List Nat)
    (metadata : EventMetadata) : Option DexEvent :=
  if discriminator = TRADE_EVENT then parse_trade_inner_instruction data metadata
  else if discriminator = COMPLETE_PUMP_AMM_MIGRATION_EVENT then
    parse_migrate_inner_instruction data metadata
  else none

end PumpFun

/-- `is_raydium_clmm_swap_instruction` (raydium_clmm/parser.rs):
    discriminator is `SWAP` or `SWAP_V2`. -/
def is_raydium_clmm_swap_instruction (discriminator : List Nat) : Bool :=
  discriminator = [248, 198, 158, 145, 225, 117, 135, 200] ||
  discriminator = [43, 4, 237, 11, 26, 201, 30, 98]

/-- `is_whirlpool_swap_instruction` (whirlpool/parser.rs). -/
def is_whirlpool_swap_instruction (discriminator : List Nat) : Bool :=
  discriminator = [248, 198, 158, 145, 225, 117, 135, 200] ||
  discriminator = [43, 4, 237, 11, 26, 201, 30, 98]

/-- Modelled from the spec: `is_raydium_cpmm_swap_instruction` is referenced
    by the walker but absent from `src/`; the CPMM swap discriminators are
    `SWAP_BASE_IN`/`SWAP_BASE_OUT` (raydium_cpmm/events.rs). -/
def is_raydium_cpmm_swap_instruction (discriminator : List Nat) : Bool :=
  discriminator = [143, 190, 90, 218, 196, 30, 51, 222] ||
  discriminator = [55, 217, 98, 86, 163, 74, 180, 173]

namespace EventDispatcher

/-- `EventDispatcher::match_protocol_by_program_id`. -/
def match_protocol_by_program_id (program_id : Pubkey) : Option Protocol :=
  if program_id = PUMPFUN_PROGRAM_ID then some .PumpFun
  else if program_id = PUMPSWAP_PROGRAM_ID then some .PumpSwap
  else if program_id = BONK_PROGRAM_ID then some .Bonk
  else if program_id = RAYDIUM_CPMM_PROGRAM_ID then some .RaydiumCpmm
  else if program_id = RAYDIUM_CLMM_PROGRAM_ID then some .RaydiumClmm
  else if program_id = RAYDIUM_AMM_V4_PROGRAM_ID then some .RaydiumAmmV4
  else if program_id = METEORA_DAMM_V2_PROGRAM_ID then some .MeteoraDammV2
  else if program_id = METEORA_DLMM_PROGRAM_ID then some .MeteoraDlmm
  else if program_id = WHIRLPOOL_PROGRAM_ID then some .Whirlpool
  else none

/-- `EventDispatcher::is_compute_budget_program`. -/
def is_compute_budget_program (program_id : Pubkey) : Bool :=
  program_id = COMPUTE_BUDGET_PROGRAM_ID

/-- The `ProtocolType` tag the dispatcher stamps into metadata. -/
def protocolTag : Protocol → ProtocolType
  | .PumpFun => .PumpFun
  | .PumpSwap => .PumpSwap
  | .Bonk => .Bonk
  | .RaydiumCpmm => .RaydiumCpmm
  | .RaydiumClmm => .RaydiumClmm
  | .RaydiumAmmV4 => .RaydiumAmmV4
  | .MeteoraDammV2 => .MeteoraDammV2
  | .MeteoraDlmm => .MeteoraDlmm
  | .Whirlpool => .Whirlpool

/-- `EventDispatcher::dispatch_instruction`: stamp `metadata.protocol`, then
    route to the protocol decoder. Protocols whose decoders produce only
    variants outside the embedded universe are represented by `none`
    (Whirlpool is `None` in the source itself). -/
def dispatch_instruction (protocol : Protocol) (instruction_discriminator : List Nat)
    (instruction_data : List Nat) (accounts : List Pubkey)
    (metadata : EventMetadata) : Option DexEvent :=
  let metadata := { metadata with protocol := protocolTag protocol }
  match protocol with
  | .PumpFun =>
    PumpFun.parse_pumpfun_instruction_data instruction_discriminator
      instruction_data accounts metadata
  | .PumpSwap =>
    PumpSwap.parse_pumpswap_instruction_data instruction_discriminator
      instruction_data accounts metadata
  | _ => none

/-- `EventDispatcher::dispatch_inner_instruction`: stamp `metadata.protocol`,
    then route. CLMM/CPMM/Whirlpool have no inner-instruction events in the
    source (`None`); the remaining protocols outside the embedded universe
    are represented by `none`. -/
def dispatch_inner_instruction (protocol : Protocol)
    (inner_instruction_discriminator : List Nat)
    (inner_instruction_data : List Nat) (metadata : EventMetadata) :
    Option DexEvent :=
  let metadata := { metadata with protocol := protocolTag protocol }
  match protocol with
  | .PumpFun =>
    PumpFun.parse_pumpfun_inner_instruction_data inner_instruction_discriminator
      inner_instruction_data metadata
  | .PumpSwap =>
    PumpSwap.parse_pumpswap_inner_instruction_data inner_instruction_discriminator
      inner_instruction_data metadata
  | _ => none

/-- Modelled from the spec: `dispatch_compute_budget_instruction`
    (`common_event_parser.rs` absent from `src/`). Decodes the two
    recognized compute-budget ops — tag byte `2` = `SetComputeUnitLimit`
    (u32 payload), tag byte `3` = `SetComputeUnitPrice` (u64 payload) — and
    produces events with `protocol = Common`. -/
def dispatch_compute_budget_instruction (data : List Nat)
    (metadata : EventMetadata) : Option DexEvent :=
  match data.head? with
  | some 2 =>
    if 5 ≤ data.length then
      some (.ComputeBudgetEvent
        { metadata := { metadata with
                        protocol := ProtocolType.Common
                        event_type := EventType.SetComputeUnitLimit },
          value := leNat (bytesAt data 1 4) })
    else none
  | some 3 =>
    if 9 ≤ data.length then
      some (.ComputeBudgetEvent
        { metadata := { metadata with
                        protocol := ProtocolType.Common
                        event_type := EventType.SetComputeUnitPrice },
          value := leNat (bytesAt data 1 8) })
    else none
  | _ => none

end EventDispatcher

/-- Compiled instruction as delivered by the transport frame. -/
structure CompiledInstruction where
  program_id_index : Nat
  accounts : List Nat
  data : List Nat
deriving DecidableEq, Repr

/-- Inner-instruction group, tagged with the outer index it belongs to. -/
structure InnerInstructions where
  index : Nat
  instructions : List CompiledInstruction
deriving DecidableEq, Repr

/-- Replace the element at position `i` by `f` of it (out of range: no-op). -/
def modifyAt (f : α → α) : Nat → List α → List α
  | _, [] => []
  | 0, a :: l => f a :: l
  | n + 1, a :: l => a :: modifyAt f n l

/-- Modelled from the spec: one transaction log line, classified by the
    three shapes the index recognizes. The string-level classifiers
    (`parse_invoke_line`, `is_success_or_failed_line` over base58 program
    ids, and `extract_program_data` from the absent `common/utils.rs`) are
    abstracted by this classification; the shapes are mutually exclusive on
    the log lines programs actually emit. -/
inductive LogLine where
  | invoke (program_id : Pubkey) (depth : Nat)
  | terminator
  | programData (payload : String)
  | other
deriving DecidableEq, Repr

/-- `parse_invoke_line`: recognize `"Program <id> invoke [<depth>]"`. -/
def parse_invoke_line : LogLine → Option (Pubkey × Nat)
  | .invoke program_id depth => some (program_id, depth)
  | _ => none

/-- `is_success_or_failed_line`: recognize `"Program … success"` and
    `"Program … failed: …"`. -/
def is_success_or_failed_line : LogLine → Bool
  | .terminator => true
  | _ => false

/-- Modelled from the spec: `extract_program_data` (absent `common/utils.rs`)
    returns the base64 payload of a `"Program data: <base64>"` line. -/
def extract_program_data : LogLine → Option String
  | .programData payload => some payload
  | _ => none

/-- One CPI invocation span reconstructed from the logs
    (`InvocationSpan`; `end` is a Lean keyword, hence `end_`). -/
structure InvocationSpan where
  program_id : Pubkey
  depth : Nat
  start : Nat
  end_ : Nat
deriving DecidableEq, Repr

/-- A `"Program data:"` payload attributed to an instruction slot. -/
structure ProgramDataItem where
  base64 : String
  program_id : Pubkey
  depth : Nat
  log_index : Nat
deriving DecidableEq, Repr

/-- Loop body of `parse_invocation_spans`: walk the enumerated log lines,
    pushing a span per invoke line and closing the innermost open span per
    success/failed line (the Rust `Vec` stack is modelled head-first). -/
def spansGo : List InvocationSpan → List Nat → List (Nat × LogLine) →
    List InvocationSpan × List Nat
  | spans, stack, [] => (spans, stack)
  | spans, stack, (idx, log) :: rest =>
    match parse_invoke_line log with
    | some (program_id, depth) =>
      spansGo (spans ++ [{ program_id := program_id, depth := depth,
                           start := idx, end_ := idx }])
        (spans.length :: stack) rest
    | none =>
      if is_success_or_failed_line log then
        match stack with
        | span_idx :: stack' =>
          spansGo (modifyAt (fun s => { s with end_ := idx }) span_idx spans)
            stack' rest
        | [] => spansGo spans stack rest
      else spansGo spans stack rest

/-- `parse_invocation_spans`: spans still open at end of log are closed at
    the last line index. -/
def parse_invocation_spans (logs : List LogLine) : List InvocationSpan :=
  let (spans, stack) := spansGo [] [] logs.enum
  let last_idx := logs.length - 1
  stack.foldl (fun sp i => modifyAt (fun s => { s with end_ := last_idx }) i sp)
    spans

/-- `is_within_child_span`: does log line `idx` fall inside a strictly
    deeper span contained in `span`? -/
def is_within_child_span (idx : Nat) (span : InvocationSpan)
    (spans : List InvocationSpan) : Bool :=
  spans.any (fun child =>
    decide (span.depth < child.depth) && decide (span.start ≤ child.start) &&
    decide (child.end_ ≤ span.end_) && decide (child.start ≤ idx) &&
    decide (idx ≤ child.end_))

/-- Scan loop of `find_program_data_in_span`: `count` indices starting at
    `idx`, skipping indices inside child spans, returning the first
    `"Program data:"` payload. -/
def findPDGo (span : InvocationSpan) (spans : List InvocationSpan)
    (logs : List LogLine) : Nat → Nat → Option ProgramDataItem
  | _, 0 => none
  | idx, count + 1 =>
    if is_within_child_span idx span spans then
      findPDGo span spans logs (idx + 1) count
    else
      match extract_program_data (logs.getD idx .other) with
      | some base64 =>
        some { base64 := base64, program_id := span.program_id,
               depth := span.depth, log_index := idx }
      | none => findPDGo span spans logs (idx + 1) count

/-- `find_program_data_in_span`: the first `"Program data:"` line inside the
    span (clamped to the log range) that is not inside a child span. -/
def find_program_data_in_span (span : InvocationSpan)
    (spans : List InvocationSpan) (logs : List LogLine) :
    Option ProgramDataItem :=
  if logs.isEmpty ∨ logs.length ≤ span.start then none
  else
    let e := min span.end_ (logs.length - 1)
    findPDGo span spans logs span.start (e + 1 - span.start)

/-- `ProgramDataIndex`: per-outer and per-(outer, inner) attributed
    program-data payloads. -/
structure ProgramDataIndex where
  outer : List (Option ProgramDataItem)
  inner : List (List (Option ProgramDataItem))
deriving DecidableEq, Repr

/-- `ProgramDataIndex::get_outer`. -/
def ProgramDataIndex.get_outer (index : ProgramDataIndex) (outer_index : Int) :
    Option ProgramDataItem :=
  if outer_index < 0 then none
  else (index.outer.get? outer_index.toNat).bind id

/-- `ProgramDataIndex::get_inner`. -/
def ProgramDataIndex.get_inner (index : ProgramDataIndex)
    (outer_index inner_index : Int) : Option ProgramDataItem :=
  if outer_index < 0 ∨ inner_index < 0 then none
  else
    match index.inner.get? outer_index.toNat with
    | none => none
    | some outer => (outer.get? inner_index.toNat).bind id

/-- `build_program_data_index`: attribute the `i`-th `depth == 1` span to
    outer instruction `i`, and the `j`-th contained deeper span (sorted by
    start) to inner slot `j` of that outer. -/
def build_program_data_index (logs : List LogLine) (outer_len : Nat)
    (inner_instructions : List InnerInstructions) : ProgramDataIndex :=
  let innerInit : List (List (Option ProgramDataItem)) :=
    inner_instructions.foldl
      (fun acc inner =>
        if inner.index < outer_len then
          acc.set inner.index (List.replicate inner.instructions.length none)
        else acc)
      (List.replicate outer_len [])
  if logs.isEmpty ∨ outer_len = 0 then
    { outer := List.replicate outer_len none, inner := innerInit }
  else
    let spans := parse_invocation_spans logs
    let outer_spans := spans.filter (fun s => decide (s.depth = 1))
    { outer := (List.range outer_len).map (fun i =>
        match outer_spans.get? i with
        | some s => find_program_data_in_span s spans logs
        | none => none),
      inner := (List.range outer_len).map (fun i =>
        let slots := (innerInit.get? i).getD []
        match outer_spans.get? i with
        | none => slots
        | some outer_span =>
          if slots.isEmpty then slots
          else
            let inner_spans := (spans.filter (fun s =>
              decide (2 ≤ s.depth) && decide (outer_span.start ≤ s.start) &&
              decide (s.end_ ≤ outer_span.end_))).mergeSort
              (fun a b => decide (a.start ≤ b.start))
            (List.range slots.length).map (fun j =>
              match inner_spans.get? j with
              | some sp => find_program_data_in_span sp spans logs
              | none => none)) }

/-- `merge` (core/merger_event.rs): merge an inner CPI event into the outer
    instruction event, field by field, restricted to the embedded variants
    (all other source arms, like the absent variants themselves, fall to the
    final wildcard that leaves the outer event unchanged). -/
def merge (instruction_event : DexEvent) (cpi_log_event : DexEvent) : DexEvent :=
  match instruction_event with
  | .PumpFunTradeEvent e =>
    match cpi_log_event with
    | .PumpFunTradeEvent cpie =>
      .PumpFunTradeEvent { e with
        mint := cpie.mint
        sol_amount := cpie.sol_amount
        token_amount := cpie.token_amount
        is_buy := cpie.is_buy
        user := cpie.user
        timestamp := cpie.timestamp
        virtual_sol_reserves := cpie.virtual_sol_reserves
        virtual_token_reserves := cpie.virtual_token_reserves
        real_sol_reserves := cpie.real_sol_reserves
        real_token_reserves := cpie.real_token_reserves
        fee_recipient := cpie.fee_recipient
        fee_basis_points := cpie.fee_basis_points
        fee := cpie.fee
        creator := cpie.creator
        creator_fee_basis_points := cpie.creator_fee_basis_points
        creator_fee := cpie.creator_fee }
    | _ => instruction_event
  | .PumpFunMigrateEvent e =>
    match cpi_log_event with
    | .PumpFunMigrateEvent cpie =>
      .PumpFunMigrateEvent { e with
        user := cpie.user
        mint := cpie.mint
        mint_amount := cpie.mint_amount
        sol_amount := cpie.sol_amount
        pool_migration_fee := cpie.pool_migration_fee
        bonding_curve := cpie.bonding_curve
        timestamp := cpie.timestamp
        pool := cpie.pool }
    | _ => instruction_event
  | .PumpSwapBuyEvent e =>
    match cpi_log_event with
    | .PumpSwapBuyEvent cpie =>
      .PumpSwapBuyEvent { e with
        timestamp := cpie.timestamp
        base_amount_out := cpie.base_amount_out
        max_quote_amount_in := cpie.max_quote_amount_in
        user_base_token_reserves := cpie.user_base_token_reserves
        user_quote_token_reserves := cpie.user_quote_token_reserves
        pool_base_token_reserves := cpie.pool_base_token_reserves
        pool_quote_token_reserves := cpie.pool_quote_token_reserves
        quote_amount_in := cpie.quote_amount_in
        lp_fee_basis_points := cpie.lp_fee_basis_points
        lp_fee := cpie.lp_fee
        protocol_fee_basis_points := cpie.protocol_fee_basis_points
        protocol_fee := cpie.protocol_fee
        quote_amount_in_with_lp_fee := cpie.quote_amount_in_with_lp_fee
        user_quote_amount_in := cpie.user_quote_amount_in
        pool := cpie.pool
        user := cpie.user
        user_base_token_account := cpie.user_base_token_account
        user_quote_token_account := cpie.user_quote_token_account
        protocol_fee_recipient := cpie.protocol_fee_recipient
        protocol_fee_recipient_token_account :=
          cpie.protocol_fee_recipient_token_account
        coin_creator := cpie.coin_creator
        coin_creator_fee_basis_points := cpie.coin_creator_fee_basis_points
        coin_creator_fee := cpie.coin_creator_fee }
    | _ => instruction_event
  | .PumpSwapSellEvent e =>
    match cpi_log_event with
    | .PumpSwapSellEvent cpie =>
      .PumpSwapSellEvent { e with
        timestamp := cpie.timestamp
        base_amount_in := cpie.base_amount_in
        min_quote_amount_out := cpie.min_quote_amount_out
        user_base_token_reserves := cpie.user_base_token_reserves
        user_quote_token_reserves := cpie.user_quote_token_reserves
        pool_base_token_reserves := cpie.pool_base_token_reserves
        pool_quote_token_reserves := cpie.pool_quote_token_reserves
        quote_amount_out := cpie.quote_amount_out
        lp_fee_basis_points := cpie.lp_fee_basis_points
        lp_fee := cpie.lp_fee
        protocol_fee_basis_points := cpie.protocol_fee_basis_points
        protocol_fee := cpie.protocol_fee
        quote_amount_out_without_lp_fee := cpie.quote_amount_out_without_lp_fee
        user_quote_amount_out := cpie.user_quote_amount_out
        pool := cpie.pool
        user := cpie.user
        user_base_token_account := cpie.user_base_token_account
        user_quote_token_account := cpie.user_quote_token_account
        protocol_fee_recipient := cpie.protocol_fee_recipient
        protocol_fee_recipient_token_account :=
          cpie.protocol_fee_recipient_token_account
        coin_creator := cpie.coin_creator
        coin_creator_fee_basis_points := cpie.coin_creator_fee_basis_points
        coin_creator_fee := cpie.coin_creator_fee }
    | _ => instruction_event
  | _ => instruction_event

/-- `MAX_SIGNATURES` (core/global_state.rs). -/
def MAX_SIGNATURES : Nat := 1000
/-- `CLEANUP_BATCH_SIZE` (core/global_state.rs). -/
def CLEANUP_BATCH_SIZE : Nat := 100

/-- Per-signature trader addresses (`SignatureAddresses`); the `BTreeSet`s
    are modelled as duplicate-free lists. -/
structure SignatureAddresses where
  dev_addresses : List Pubkey
  bonk_dev_addresses : List Pubkey
deriving DecidableEq, Repr

/-- Insert into a set modelled as a duplicate-free list. -/
def insertSet (a : α) [DecidableEq α] (l : List α) : List α :=
  if a ∈ l then l else l ++ [a]

/-- `GlobalState`: the concurrent map is modelled as an association list in
    insertion order (the `DashMap` iteration order the eviction batch takes
    its keys from); signatures (64 bytes) are represented abstractly by
    naturals. The atomics become plain fields of the sequential state. -/
structure GlobalState where
  signature_data : List (Nat × SignatureAddresses)
  signature_count : Nat
  generation : Nat
deriving DecidableEq, Repr

/-- `GlobalState::new()`. -/
def GlobalState.initial : GlobalState :=
  { signature_data := [], signature_count := 0, generation := 0 }

/-- `GlobalState::maybe_cleanup`: when the count exceeds `MAX_SIGNATURES`,
    the (sequentially always-winning) CAS on the generation counter admits
    one cleaner, which removes a batch of `CLEANUP_BATCH_SIZE` signatures,
    decrementing the count per removal. -/
def maybe_cleanup (gs : GlobalState) : GlobalState :=
  if gs.signature_count ≤ MAX_SIGNATURES then gs
  else
    let gs := { gs with generation := gs.generation + 1 }
    let signatures_to_remove := gs.signature_data.map Prod.fst
    if signatures_to_remove.length ≤ MAX_SIGNATURES then gs
    else
      let signatures_to_remove := signatures_to_remove.take CLEANUP_BATCH_SIZE
      signatures_to_remove.foldl
        (fun acc s =>
          { acc with
            signature_data := acc.signature_data.filter (fun kv => decide (kv.1 ≠ s))
            signature_count := acc.signature_count - 1 })
        gs

/-- `GlobalState::add_dev_address`: cleanup, then upsert the address into
    the signature's dev set (count is incremented only on fresh insert). -/
def add_dev_address (gs : GlobalState) (signature : Nat) (address : Pubkey) :
    GlobalState :=
  let gs := maybe_cleanup gs
  if (gs.signature_data.find? (fun kv => decide (kv.1 = signature))).isSome then
    { gs with
      signature_data := gs.signature_data.map (fun kv =>
        if kv.1 = signature then
          (kv.1, { kv.2 with dev_addresses := insertSet address kv.2.dev_addresses })
        else kv) }
  else
    { gs with
      signature_data := gs.signature_data ++
        [(signature, { dev_addresses := [address], bonk_dev_addresses := [] })]
      signature_count := gs.signature_count + 1 }

/-- `GlobalState::add_bonk_dev_address`. -/
def add_bonk_dev_address (gs : GlobalState) (signature : Nat) (address : Pubkey) :
    GlobalState :=
  let gs := maybe_cleanup gs
  if (gs.signature_data.find? (fun kv => decide (kv.1 = signature))).isSome then
    { gs with
      signature_data := gs.signature_data.map (fun kv =>
        if kv.1 = signature then
          (kv.1, { kv.2 with
                   bonk_dev_addresses := insertSet address kv.2.bonk_dev_addresses })
        else kv) }
  else
    { gs with
      signature_data := gs.signature_data ++
        [(signature, { dev_addresses := [], bonk_dev_addresses := [address] })]
      signature_count := gs.signature_count + 1 }

/-- `GlobalState::is_dev_address_in_signature`: `false` for absent
    signatures or addresses. -/
def is_dev_address_in_signature (gs : GlobalState) (signature : Nat)
    (address : Pubkey) : Bool :=
  match gs.signature_data.find? (fun kv => decide (kv.1 = signature)) with
  | some kv => kv.2.dev_addresses.contains address
  | none => false

/-- `GlobalState::is_bonk_dev_address_in_signature`. -/
def is_bonk_dev_address_in_signature (gs : GlobalState) (signature : Nat)
    (address : Pubkey) : Bool :=
  match gs.signature_data.find? (fun kv => decide (kv.1 = signature)) with
  | some kv => kv.2.bonk_dev_addresses.contains address
  | none => false

/-- One insert operation on the registry. -/
inductive RegistryOp where
  | addDev (signature : Nat) (address : Pubkey)
  | addBonkDev (signature : Nat) (address : Pubkey)
deriving DecidableEq, Repr

/-- Apply one registry operation. -/
def registryStep (gs : GlobalState) : RegistryOp → GlobalState
  | .addDev signature address => add_dev_address gs signature address
  | .addBonkDev signature address => add_bonk_dev_address gs signature address

/-- Run a sequence of registry operations from the initial state. -/
def runRegistryOps (ops : List RegistryOp) : GlobalState :=
  ops.foldl registryStep GlobalState.initial

/-- `EventParser::process_event` (post-processing), restricted to the
    embedded variants. The create-token/pool arms (which write the global
    registry) concern variants outside the universe; the embedded arms only
    read it, so the registry is passed in as a read-only value. -/
def process_event (gs : GlobalState) (event : DexEvent)
    (bot_wallet : Option Pubkey) : DexEvent :=
  let signature := event.metadata.signature
  match event with
  | .PumpFunTradeEvent trade_info =>
    let trade_info := { trade_info with
      is_dev_create_token_trade :=
        is_dev_address_in_signature gs signature trade_info.user ||
        is_dev_address_in_signature gs signature trade_info.creator
      is_bot := bot_wallet = some trade_info.user }
    let trade_info :=
      match trade_info.metadata.swap_data with
      | some swap_data =>
        { trade_info with metadata := { trade_info.metadata with
            swap_data := some { swap_data with
              from_amount := if trade_info.is_buy then trade_info.sol_amount
                             else trade_info.token_amount
              to_amount := if trade_info.is_buy then trade_info.token_amount
                           else trade_info.sol_amount } } }
      | none => trade_info
    .PumpFunTradeEvent trade_info
  | .PumpSwapBuyEvent trade_info =>
    match trade_info.metadata.swap_data with
    | some swap_data =>
      .PumpSwapBuyEvent { trade_info with metadata := { trade_info.metadata with
        swap_data := some { swap_data with
          from_amount := trade_info.user_quote_amount_in
          to_amount := trade_info.base_amount_out } } }
    | none => .PumpSwapBuyEvent trade_info
  | .PumpSwapSellEvent trade_info =>
    match trade_info.metadata.swap_data with
    | some swap_data =>
      .PumpSwapSellEvent { trade_info with metadata := { trade_info.metadata with
        swap_data := some { swap_data with
          from_amount := trade_info.base_amount_in
          to_amount := trade_info.user_quote_amount_out } } }
    | none => .PumpSwapSellEvent trade_info
  | _ => event

/-- One swap leg `(event position, from_mint, to_mint)` (`MintLeg`). -/
structure MintLeg where
  event_index : Nat
  from_mint : Pubkey
  to_mint : Pubkey
deriving DecidableEq, Repr

/-- `EventParser::extract_swap_mints`, restricted to the embedded variants
    (PumpSwap buy: quote → base, sell: base → quote; every other embedded
    variant falls to the source's wildcard `None` arm). An unresolved
    (default) mint on either side yields `none`. -/
def extract_swap_mints (event : DexEvent) : Option (Pubkey × Pubkey) :=
  let mints : Option (Pubkey × Pubkey) :=
    match event with
    | .PumpSwapBuyEvent e => some (e.quote_mint, e.base_mint)
    | .PumpSwapSellEvent e => some (e.base_mint, e.quote_mint)
    | _ => none
  match mints with
  | none => none
  | some (from_mint, to_mint) =>
    if from_mint = Pubkey.defaultKey ∨ to_mint = Pubkey.defaultKey then none
    else some (from_mint, to_mint)

/-- Set `is_arb_leg` on one event. -/
def setArbFlag (event : DexEvent) : DexEvent :=
  event.mapMetadata (fun m => { m with is_arb_leg := true })

/-- `EventParser::mark_arb_segment`: mark every collected leg when the
    segment has at least two legs and closes a cycle. -/
def mark_arb_segment (events : List DexEvent) (legs : List MintLeg) :
    List DexEvent :=
  if legs.length < 2 then events
  else
    match legs.head?, legs.getLast? with
    | some first_leg, some last_leg =>
      if first_leg.from_mint ≠ last_leg.to_mint then events
      else legs.foldl (fun evs leg => modifyAt setArbFlag leg.event_index evs) events
    | _, _ => events

/-- Loop body of `mark_arb_inner_swap_events`; `remaining` counts the events
    still to visit (`remaining = events.length - event_index` throughout). -/
def markGo : List DexEvent → List MintLeg → Nat → Nat → List DexEvent
  | events, segment_legs, _, 0 => mark_arb_segment events segment_legs
  | events, segment_legs, event_index, remaining + 1 =>
    match events.get? event_index with
    | none => mark_arb_segment events segment_legs
    | some event =>
      if event.metadata.inner_index.isNone then
        markGo events segment_legs (event_index + 1) remaining
      else
        match extract_swap_mints event with
        | none =>
          markGo (mark_arb_segment events segment_legs) [] (event_index + 1)
            remaining
        | some (from_mint, to_mint) =>
          let next_leg : MintLeg :=
            { event_index := event_index, from_mint := from_mint,
              to_mint := to_mint }
          match segment_legs.getLast? with
          | some last_leg =>
            if last_leg.to_mint ≠ next_leg.from_mint then
              markGo (mark_arb_segment events segment_legs) [next_leg]
                (event_index + 1) remaining
            else
              markGo events (segment_legs ++ [next_leg]) (event_index + 1)
                remaining
          | none =>
            markGo events (segment_legs ++ [next_leg]) (event_index + 1)
              remaining

/-- `EventParser::mark_arb_inner_swap_events`: mark arbitrage legs inside
    one outer instruction's batch of inner events. -/
def mark_arb_inner_swap_events (events : List DexEvent) : List DexEvent :=
  markGo events [] 0 events.length

/-- `EventParser::should_handle`: protocol allow-list check. The event-type
    filter parameter is ignored by the source (`_event_type_filter`). -/
def should_handle (protocols : List Protocol)
    (_event_type_filter : Option EventTypeFilter) (program_id : Pubkey) : Bool :=
  match EventDispatcher.match_protocol_by_program_id program_id with
  | some protocol => protocols.contains protocol
  | none => EventDispatcher.is_compute_budget_program program_id

/-- `EventParser::instruction_needs_program_data`: does this instruction
    belong to the CLMM/CPMM/Whirlpool family of swaps enriched from logs? -/
def instruction_needs_program_data (protocol : Protocol) (data : List Nat) :
    Bool :=
  match protocol with
  | .RaydiumCpmm =>
    if data.length < 8 then false
    else is_raydium_cpmm_swap_instruction (data.take 8)
  | .RaydiumClmm =>
    if data.length < 8 then false
    else is_raydium_clmm_swap_instruction (data.take 8)
  | .Whirlpool =>
    if data.length < 8 then false
    else is_whirlpool_swap_instruction (data.take 8)
  | _ => false

/-- The positional account list handed to decoders: instruction account
    indices resolved against the key table, out-of-bounds indices silently
    dropped (`filter_map` over `accounts.get` in the source). -/
def resolve_account_pubkeys (idxs : List Nat) (accounts : List Pubkey) :
    List Pubkey :=
  idxs.filterMap (fun idx => accounts.get? idx)

/-- `enrich_event_from_program_data`, restricted to the embedded universe:
    the source looks up the `ProgramDataItem` slot and then pattern-matches
    on the CLMM/CPMM/Whirlpool swap event variants, none of which are in the
    embedded universe, so on this universe the event is always returned
    unchanged. -/
def enrich_event_from_program_data (event : DexEvent) (_protocol : Protocol)
    (_program_data_index : Option ProgramDataIndex) (_outer_index : Int)
    (_inner_index : Option Int) : DexEvent :=
  event

/-- The inner-CPI-event scan of `parse_event_from_grpc_instruction`
    (lines 497–519): first inner instruction with a ≥16-byte payload whose
    16-byte discriminator the protocol's inner decoder accepts. -/
def find_inner_instruction_event (protocol : Protocol)
    (metadata : EventMetadata) : List CompiledInstruction → Option DexEvent
  | [] => none
  | inner_instruction :: rest =>
    let inner_data := inner_instruction.data
    if inner_data.length < 16 then
      find_inner_instruction_event protocol metadata rest
    else
      match EventDispatcher.dispatch_inner_instruction protocol
          (inner_data.take 16) (inner_data.drop 16) metadata with
      | some inner_event => some inner_event
      | none => find_inner_instruction_event protocol metadata rest

/-- `EventParser::parse_event_from_grpc_instruction`: decode one (outer or
    inner) instruction into at most one event — bounds checks, allow-list,
    discriminator split, dispatch, program-data enrichment, inner-CPI scan,
    the PumpFun MIGRATE special case, merge, and post-processing. -/
def parse_event_from_grpc_instruction (gs : GlobalState)
    (protocols : List Protocol) (event_type_filter : Option EventTypeFilter)
    (instruction : CompiledInstruction) (accounts : List Pubkey)
    (signature : Nat) (slot : Nat) (block_time : Option Timestamp)
    (recv_us : Int) (outer_index : Int) (inner_index : Option Int)
    (bot_wallet : Option Pubkey) (transaction_index : Option Nat)
    (inner_instructions : Option InnerInstructions)
    (program_data_index : Option ProgramDataIndex) : Option DexEvent :=
  let program_id_index := instruction.program_id_index
  if accounts.length ≤ program_id_index then none
  else
    let program_id := accounts.getD program_id_index 0
    if ¬ should_handle protocols event_type_filter program_id then none
    else
      let is_cu_program := EventDispatcher.is_compute_budget_program program_id
      let disc_len := if program_id = RAYDIUM_AMM_V4_PROGRAM_ID then 1 else 8
      if ¬ is_cu_program ∧ instruction.data.length < disc_len then none
      else
        let timestamp := block_time.getD { seconds := 0, nanos := 0 }
        let block_time_ms :=
          timestamp.seconds * 1000 + Int.tdiv timestamp.nanos 1000000
        let metadata := EventMetadata.new signature slot timestamp.seconds
          block_time_ms default default program_id outer_index inner_index
          recv_us transaction_index
        if is_cu_program then
          EventDispatcher.dispatch_compute_budget_instruction instruction.data
            metadata
        else
          match EventDispatcher.match_protocol_by_program_id program_id with
          | none => none
          | some protocol =>
            let instruction_discriminator := instruction.data.take disc_len
            let instruction_data := instruction.data.drop disc_len
            let account_pubkeys :=
              resolve_account_pubkeys instruction.accounts accounts
            match EventDispatcher.dispatch_instruction protocol
                instruction_discriminator instruction_data account_pubkeys
                metadata with
            | none => none
            | some event =>
              let event := enrich_event_from_program_data event protocol
                program_data_index outer_index inner_index
              let inner_instruction_event :=
                match inner_instructions with
                | some iis =>
                  let start_idx :=
                    match inner_index with
                    | some i => if 0 ≤ i then i.toNat + 1 else 0
                    | none => 0
                  find_inner_instruction_event protocol metadata
                    (iis.instructions.drop start_idx)
                | none => none
              if protocol = Protocol.PumpFun ∧
                  instruction_discriminator = PumpFun.MIGRATE_IX ∧
                  inner_instruction_event = none then none
              else
                let event :=
                  match inner_instruction_event with
                  | some ie => merge event ie
                  | none => event
                let event := event.mapMetadata (fun m =>
                  { m with handle_us := elapsed_micros_since recv_us })
                some (process_event gs event bot_wallet)

/-- Per-transaction context threaded through the walker (the parameters of
    `parse_instruction_events_from_grpc_transaction` that never change
    during the walk). -/
structure TxCtx where
  gs : GlobalState
  protocols : List Protocol
  event_type_filter : Option EventTypeFilter
  signature : Nat
  slot : Option Nat
  block_time : Option Timestamp
  recv_us : Int
  bot_wallet : Option Pubkey
  transaction_index : Option Nat

/-- Lazily build the program-data index the first time an instruction of a
    log-enriched protocol family is seen (both the outer and the inner loop
    perform exactly this check). -/
def lazyProgramDataIndex (logs : List LogLine) (compiled_len : Nat)
    (all_inner : List InnerInstructions) (accounts : List Pubkey)
    (instruction : CompiledInstruction)
    (pdi : Option ProgramDataIndex) : Option ProgramDataIndex :=
  if pdi = none ∧ ¬ logs.isEmpty then
    match accounts.get? instruction.program_id_index with
    | some program_id =>
      match EventDispatcher.match_protocol_by_program_id program_id with
      | some protocol =>
        if instruction_needs_program_data protocol instruction.data then
          some (build_program_data_index logs compiled_len all_inner)
        else pdi
      | none => pdi
    | none => pdi
  else pdi

/-- Inner-instruction loop of the walker (lines 287–339): parse each inner
    instruction as an instruction of its own program, collecting the events
    in order and updating the lazily-built program-data index. -/
def walkInner (ctx : TxCtx) (compiled_len : Nat)
    (all_inner : List InnerInstructions) (logs : List LogLine)
    (accounts : List Pubkey) (iis : InnerInstructions) :
    Nat → Option ProgramDataIndex → List CompiledInstruction →
    List DexEvent × Option ProgramDataIndex
  | _, pdi, [] => ([], pdi)
  | inner_index, pdi, inner_instruction :: rest =>
    let pdi := lazyProgramDataIndex logs compiled_len all_inner accounts
      inner_instruction pdi
    let ev := parse_event_from_grpc_instruction ctx.gs ctx.protocols
      ctx.event_type_filter inner_instruction accounts ctx.signature
      (ctx.slot.getD 0) ctx.block_time ctx.recv_us (Int.ofNat iis.index)
      (some (Int.ofNat inner_index)) ctx.bot_wallet ctx.transaction_index
      (some iis) pdi
    let (restEvents, pdi') := walkInner ctx compiled_len all_inner logs
      accounts iis (inner_index + 1) pdi rest
    match ev with
    | some e => (e :: restEvents, pdi')
    | none => (restEvents, pdi')

/-- The walker's key-table padding: extend the table with default keys up
    to the largest account index referenced by the instruction
    (`accounts.resize(max_idx + 1, Pubkey::default())`). -/
def paddedAccounts (accounts : List Pubkey) (idxs : List Nat) : List Pubkey :=
  if accounts.length ≤ idxs.foldl max 0 then
    accounts ++ List.replicate (idxs.foldl max 0 + 1 - accounts.length)
      Pubkey.defaultKey
  else accounts

/-- Outer-instruction loop of the walker (lines 243–347): per outer
    instruction, lazily build the program-data index, pad the key table to
    the largest referenced account index, emit the outer event when the
    allow-list admits it, then parse the inner group, run the arbitrage
    marker on the batch, and deliver the batch in order. -/
def walkOuter (ctx : TxCtx) (all_inner : List InnerInstructions)
    (logs : List LogLine) (compiled_len : Nat) :
    Nat → List Pubkey → Option ProgramDataIndex → List CompiledInstruction →
    List DexEvent
  | _, _, _, [] => []
  | index, accounts, pdi, instruction :: rest =>
    match accounts.get? instruction.program_id_index with
    | none => walkOuter ctx all_inner logs compiled_len (index + 1) accounts pdi rest
    | some program_id =>
      let pdi := lazyProgramDataIndex logs compiled_len all_inner accounts
        instruction pdi
      let inner_instructions := all_inner.find? (fun g => decide (g.index = index))
      let accounts := paddedAccounts accounts instruction.accounts
      let outerEvents :=
        if should_handle ctx.protocols ctx.event_type_filter program_id then
          match parse_event_from_grpc_instruction ctx.gs ctx.protocols
              ctx.event_type_filter instruction accounts ctx.signature
              (ctx.slot.getD 0) ctx.block_time ctx.recv_us (Int.ofNat index)
              none ctx.bot_wallet ctx.transaction_index inner_instructions
              pdi with
          | some ev => [ev]
          | none => []
        else []
      let (innerEvents, pdi) :=
        match inner_instructions with
        | some iis =>
          let (evs, pdi') := walkInner ctx compiled_len all_inner logs accounts
            iis 0 pdi iis.instructions
          (mark_arb_inner_swap_events evs, pdi')
        | none => ([], pdi)
      outerEvents ++ innerEvents ++
        walkOuter ctx all_inner logs compiled_len (index + 1) accounts pdi rest

/-- `EventParser::parse_instruction_events_from_grpc_transaction`: the
    transaction walker, as the ordered list of events it delivers to the
    consumer callback. -/
def parse_instruction_events_from_grpc_transaction (ctx : TxCtx)
    (compiled_instructions : List CompiledInstruction)
    (accounts : List Pubkey) (all_inner_instructions : List InnerInstructions)
    (log_messages : List LogLine) : List DexEvent :=
  let has_program :=
    accounts.any (fun a => should_handle ctx.protocols ctx.event_type_filter a)
  if has_program then
    walkOuter ctx all_inner_instructions log_messages
      compiled_instructions.length 0 accounts none compiled_instructions
  else []

/-- Subscription-controller state of one client (`YellowstoneGrpc`): the
    fields the control methods touch. The stream task, write half and
    metrics handle are summarized by presence flags; the async mutexes and
    the atomic flag become plain fields of this sequential state. -/
structure SubscribeClientState where
  active_subscription : Bool
  event_type_filter : Option EventTypeFilter
  current_request_present : Bool
  control_tx_present : Bool
  subscription_handle_present : Bool
deriving DecidableEq, Repr

/-- `YellowstoneGrpc::subscribe_events_immediate` as a sequential state
    transition: store the new event-type filter, compare-and-swap the
    active flag (`false → true`), and when the flag was already set return
    the duplicate-subscribe error without touching the live subscription.
    `transport` abstracts the outcome of `subscribe_with_request` on the
    upstream endpoint (out of scope per the spec). -/
def subscribe_events_immediate (st : SubscribeClientState)
    (event_type_filter : Option EventTypeFilter)
    (transport : Except String Unit) :
    SubscribeClientState × Except String Unit :=
  let st := { st with event_type_filter := event_type_filter }
  if st.active_subscription then
    (st, .error "Already subscribed. Use update_subscription() to modify filters")
  else
    let st := { st with active_subscription := true }
    match transport with
    | .error e => (st, .error e)
    | .ok _ =>
      ({ st with current_request_present := true, control_tx_present := true,
                 subscription_handle_present := true }, .ok ())

/-! ## Claim C8 — duplicate subscribe -/

/-- C8: calling `subscribe_events_immediate` while a subscription is already
    active on the same client returns an error whose message contains the
    literal substring "Already subscribed", leaves the active-subscription
    flag set, and does not disturb the existing subscription (request,
    control channel and stream handle are untouched), so at most one push
    subscription is active per client at any time. -/
theorem c8_duplicate_subscribe (st : SubscribeClientState)
    (f : Option EventTypeFilter) (transport : Except String Unit)
    (h : st.active_subscription = true) :
    ∃ msg, (subscribe_events_immediate st f transport).2 = .error msg ∧
      List.IsInfix ("Already subscribed".data) msg.data ∧
      (subscribe_events_immediate st f transport).1.active_subscription = true ∧
      (subscribe_events_immediate st f transport).1.current_request_present =
        st.current_request_present ∧
      (subscribe_events_immediate st f transport).1.control_tx_present =
        st.control_tx_present ∧
      (subscribe_events_immediate st f transport).1.subscription_handle_present =
        st.subscription_handle_present := by
  refine ⟨"Already subscribed. Use update_subscription() to modify filters",
    ?_, ?_, ?_, ?_, ?_, ?_⟩ <;>
    simp [subscribe_events_immediate, h]
  decide

/-- Witness for C8 at a concrete already-active client state. -/
theorem c8_duplicate_subscribe_witness :
    ∃ msg,
      (subscribe_events_immediate
        ⟨true, none, true, true, true⟩ none (Except.ok ())).2 = .error msg ∧
      List.IsInfix ("Already subscribed".data) msg.data ∧
      (subscribe_events_immediate
        ⟨true, none, true, true, true⟩ none (Except.ok ())).1.active_subscription
        = true ∧
      (subscribe_events_immediate ⟨true, none, true, true, true⟩ none
        (Except.ok ())).1.current_request_present =
        (⟨true, none, true, true, true⟩ : SubscribeClientState).current_request_present ∧
      (subscribe_events_immediate ⟨true, none, true, true, true⟩ none
        (Except.ok ())).1.control_tx_present =
        (⟨true, none, true, true, true⟩ : SubscribeClientState).control_tx_present ∧
      (subscribe_events_immediate ⟨true, none, true, true, true⟩ none
        (Except.ok ())).1.subscription_handle_present =
        (⟨true, none, true, true, true⟩ : SubscribeClientState).subscription_handle_present :=
  c8_duplicate_subscribe ⟨true, none, true, true, true⟩ none (Except.ok ()) rfl

/-! ## Claim C10 — out-of-bounds account indices -/

/-- C10: a compiled instruction whose `program_id_index` is outside the
    resolved key table produces no event and returns normally (the walker's
    per-instruction parse yields `none`; totality of the Lean function is
    the no-panic guarantee), and the positional account list for decoders
    drops out-of-bounds indices instead of faulting: it equals the in-bounds
    indices mapped through the key table. -/
theorem c10_out_of_bounds_safe :
    (∀ (gs : GlobalState) (protocols : List Protocol)
       (f : Option EventTypeFilter) (instruction : CompiledInstruction)
       (accounts : List Pubkey) (sig slot : Nat) (bt : Option Timestamp)
       (recv : Int) (oi : Int) (ii : Option Int) (bw : Option Pubkey)
       (ti : Option Nat) (iis : Option InnerInstructions)
       (pdi : Option ProgramDataIndex),
       accounts.length ≤ instruction.program_id_index →
       parse_event_from_grpc_instruction gs protocols f instruction accounts
         sig slot bt recv oi ii bw ti iis pdi = none) ∧
    (∀ (idxs : List Nat) (accounts : List Pubkey),
       resolve_account_pubkeys idxs accounts =
         idxs.filterMap (fun i =>
           if i < accounts.length then some (accounts.getD i Pubkey.defaultKey)
           else none)) := by
  constructor
  · intro gs protocols f instruction accounts sig slot bt recv oi ii bw ti iis
      pdi h
    simp only [parse_event_from_grpc_instruction, if_pos h]
  · intro idxs accounts
    simp only [resolve_account_pubkeys]
    congr 1
    funext i
    by_cases hi : i < accounts.length
    · simp [hi, List.getD_eq_getElem?_getD, List.get?_eq_getElem?,
        List.getElem?_eq_getElem hi]
    · simp [hi, List.get?_eq_getElem?,
        List.getElem?_eq_none (by omega : accounts.length ≤ i)]

/-- Witness for C10: a concrete instruction whose `program_id_index` (5) is
    beyond the 0-length key table yields no event, and a concrete account
    list with an out-of-bounds index (7) resolves by dropping it. -/
theorem c10_out_of_bounds_safe_witness :
    parse_event_from_grpc_instruction GlobalState.initial [] none
      ⟨5, [], []⟩ [] 0 0 none 0 0 none none none none none = none ∧
    resolve_account_pubkeys [0, 7] [42, 43] =
      ([0, 7].filterMap (fun i =>
        if i < ([42, 43] : List Pubkey).length then
          some (([42, 43] : List Pubkey).getD i Pubkey.defaultKey)
        else none)) :=
  ⟨c10_out_of_bounds_safe.1 GlobalState.initial [] none ⟨5, [], []⟩ [] 0 0 none
     0 0 none none none none none (by decide),
   c10_out_of_bounds_safe.2 [0, 7] [42, 43]⟩

/-! ## Claim C2 — merge and the outer event's fields -/

/-- C2 counterexample: `merge` does overwrite the outer `PumpSwapBuyEvent`'s
    instruction-parameter fields (`max_quote_amount_in` 2000 becomes the CPI
    payload's 1950, `base_amount_out` 1000 becomes the CPI payload's 0) and
    the positional account field `user` (7 becomes 9), contradicting the
    claimed frame condition. -/
theorem c2_merge_counterexample :
    (merge
      (.PumpSwapBuyEvent { (default : PumpSwapBuyEvent) with
        base_amount_out := 1000, max_quote_amount_in := 2000, user := 7 })
      (.PumpSwapBuyEvent { (default : PumpSwapBuyEvent) with
        max_quote_amount_in := 1950, quote_amount_in := 1950, user := 9 })) =
    (.PumpSwapBuyEvent { (default : PumpSwapBuyEvent) with
        max_quote_amount_in := 1950, quote_amount_in := 1950, user := 9 }
      : DexEvent) ∧
    (1950 : Nat) ≠ 2000 ∧ (0 : Nat) ≠ 1000 ∧ (9 : Nat) ≠ 7 := by
  refine ⟨?_, by decide, by decide, by decide⟩
  decide

/-- C2 amended: `merge` never touches the outer event's `EventMetadata`,
    but for PumpSwap buy/sell it copies the whole CPI payload — including
    `max_quote_amount_in` / `min_quote_amount_out` and the account fields
    (`pool`, `user`, token accounts, fee recipients, `coin_creator`) — onto
    the outer event; only the fields absent from the CPI payload (mints,
    pool token accounts, creator-vault accounts, token programs, and for
    Buy the volume-tracking fields) keep their instruction-derived values. -/
theorem c2_merge_amended :
    (∀ e c : DexEvent, (merge e c).metadata = e.metadata) ∧
    (∀ o c : PumpSwapBuyEvent,
      merge (.PumpSwapBuyEvent o) (.PumpSwapBuyEvent c) =
        .PumpSwapBuyEvent { c with
          metadata := o.metadata
          track_volume := o.track_volume
          total_unclaimed_tokens := o.total_unclaimed_tokens
          total_claimed_tokens := o.total_claimed_tokens
          current_sol_volume := o.current_sol_volume
          last_update_timestamp := o.last_update_timestamp
          base_mint := o.base_mint
          quote_mint := o.quote_mint
          pool_base_token_account := o.pool_base_token_account
          pool_quote_token_account := o.pool_quote_token_account
          coin_creator_vault_ata := o.coin_creator_vault_ata
          coin_creator_vault_authority := o.coin_creator_vault_authority
          base_token_program := o.base_token_program
          quote_token_program := o.quote_token_program }) ∧
    (∀ o c : PumpSwapSellEvent,
      merge (.PumpSwapSellEvent o) (.PumpSwapSellEvent c) =
        .PumpSwapSellEvent { c with
          metadata := o.metadata
          base_mint := o.base_mint
          quote_mint := o.quote_mint
          pool_base_token_account := o.pool_base_token_account
          pool_quote_token_account := o.pool_quote_token_account
          coin_creator_vault_ata := o.coin_creator_vault_ata
          coin_creator_vault_authority := o.coin_creator_vault_authority
          base_token_program := o.base_token_program
          quote_token_program := o.quote_token_program }) := by
  refine ⟨?_, ?_, ?_⟩
  · intro e c
    cases e <;> cases c <;> rfl
  · intro o c
    cases o
    cases c
    rfl
  · intro o c
    cases o
    cases c
    rfl

/-! ## Claim C3 — the event-type filter and the transaction walker -/

/-- Buy instruction bytes: the `BUY_IX` discriminator followed by
    `base_amount_out = 1000` and `max_quote_amount_in = 2000` as
    little-endian u64 at payload offsets 0..8 and 8..16. -/
def buyData1000_2000 : List Nat :=
  [102, 6, 61, 18, 1, 218, 235, 234,
   232, 3, 0, 0, 0, 0, 0, 0,
   208, 7, 0, 0, 0, 0, 0, 0]

/-- A resolved key table: the PumpSwap program id followed by 13 account
    keys. -/
def sampleBuyKeys : List Pubkey :=
  [PUMPSWAP_PROGRAM_ID,
   101, 102, 103, 104, 105, 106, 107, 108, 109, 110, 111, 112, 113]

/-- A PumpSwap Buy outer instruction over `sampleBuyKeys`. -/
def sampleBuyInstruction : CompiledInstruction :=
  { program_id_index := 0,
    accounts := [1, 2, 3, 4, 5, 6, 7, 8, 9, 10, 11, 12, 13],
    data := buyData1000_2000 }

/-- C3 counterexample: with an event-type filter whose include set is
    `[PumpSwapSell]`, the transaction walker still produces the
    `PumpSwapBuy` event — the filter is never consulted on the transaction
    path (`should_handle` ignores it), so the event reaches the callback
    although its type is outside the include set. -/
theorem c3_filter_counterexample :
    ((parse_event_from_grpc_instruction GlobalState.initial [Protocol.PumpSwap]
        (some { include_types := [EventType.PumpSwapSell] })
        sampleBuyInstruction sampleBuyKeys 0 0 none 0 0 none none none none
        none).map (fun ev => ev.metadata.event_type)) =
      some EventType.PumpSwapBuy ∧
    ({ include_types := [EventType.PumpSwapSell] }
      : EventTypeFilter).include_types.contains EventType.PumpSwapBuy = false := by
  constructor
  · decide
  · decide

/-- The per-instruction parse is independent of the event-type filter
    (helper for the amended C3). -/
theorem parse_event_filter_irrelevant (gs : GlobalState)
    (protocols : List Protocol) (f f' : Option EventTypeFilter)
    (instruction : CompiledInstruction) (accounts : List Pubkey)
    (sig slot : Nat) (bt : Option Timestamp) (recv : Int) (oi : Int)
    (ii : Option Int) (bw : Option Pubkey) (ti : Option Nat)
    (iis : Option InnerInstructions) (pdi : Option ProgramDataIndex) :
    parse_event_from_grpc_instruction gs protocols f instruction accounts sig
      slot bt recv oi ii bw ti iis pdi =
    parse_event_from_grpc_instruction gs protocols f' instruction accounts sig
      slot bt recv oi ii bw ti iis pdi := by
  simp only [parse_event_from_grpc_instruction, should_handle]

/-- The inner-instruction loop is independent of the event-type filter. -/
theorem walkInner_filter_irrelevant (ctx : TxCtx) (f' : Option EventTypeFilter)
    (compiled_len : Nat) (all_inner : List InnerInstructions)
    (logs : List LogLine) (accounts : List Pubkey) (iis : InnerInstructions)
    (inner_index : Nat) (pdi : Option ProgramDataIndex)
    (instrs : List CompiledInstruction) :
    walkInner { ctx with event_type_filter := f' } compiled_len all_inner logs
      accounts iis inner_index pdi instrs =
    walkInner ctx compiled_len all_inner logs accounts iis inner_index pdi
      instrs := by
  induction instrs generalizing inner_index pdi with
  | nil => rfl
  | cons instr rest ih =>
    simp only [walkInner, ih, parse_event_filter_irrelevant ctx.gs ctx.protocols
      f' ctx.event_type_filter]

/-- The outer-instruction loop is independent of the event-type filter. -/
theorem walkOuter_filter_irrelevant (ctx : TxCtx) (f' : Option EventTypeFilter)
    (all_inner : List InnerInstructions) (logs : List LogLine)
    (compiled_len : Nat) (index : Nat) (accounts : List Pubkey)
    (pdi : Option ProgramDataIndex) (instrs : List CompiledInstruction) :
    walkOuter { ctx with event_type_filter := f' } all_inner logs compiled_len
      index accounts pdi instrs =
    walkOuter ctx all_inner logs compiled_len index accounts pdi instrs := by
  induction instrs generalizing index accounts pdi with
  | nil => rfl
  | cons instr rest ih =>
    simp only [walkOuter]
    cases accounts.get? instr.program_id_index with
    | none => exact ih _ _ _
    | some program_id =>
      simp only [walkInner_filter_irrelevant ctx f', ih,
        parse_event_filter_irrelevant ctx.gs ctx.protocols f'
          ctx.event_type_filter, should_handle]

/-- C3 amended: the transaction walker does not apply the event-type filter
    at all — its output is identical for any two filters (the filter is
    enforced only on the account path). Hence an event whose `event_type`
    is outside the include set still reaches the callback, as the
    counterexample shows. -/
theorem c3_walker_ignores_event_type_filter :
    (∀ (gs : GlobalState) (protocols : List Protocol)
       (f f' : Option EventTypeFilter) (instruction : CompiledInstruction)
       (accounts : List Pubkey) (sig slot : Nat) (bt : Option Timestamp)
       (recv : Int) (oi : Int) (ii : Option Int) (bw : Option Pubkey)
       (ti : Option Nat) (iis : Option InnerInstructions)
       (pdi : Option ProgramDataIndex),
       parse_event_from_grpc_instruction gs protocols f instruction accounts
         sig slot bt recv oi ii bw ti iis pdi =
       parse_event_from_grpc_instruction gs protocols f' instruction accounts
         sig slot bt recv oi ii bw ti iis pdi) ∧
    (∀ (ctx : TxCtx) (f' : Option EventTypeFilter)
       (instrs : List CompiledInstruction) (accounts : List Pubkey)
       (all_inner : List InnerInstructions) (logs : List LogLine),
       parse_instruction_events_from_grpc_transaction
         { ctx with event_type_filter := f' } instrs accounts all_inner logs =
       parse_instruction_events_from_grpc_transaction ctx instrs accounts
         all_inner logs) := by
  constructor
  · intro gs protocols f f' instruction accounts sig slot bt recv oi ii bw ti
      iis pdi
    exact parse_event_filter_irrelevant gs protocols f f' instruction accounts
      sig slot bt recv oi ii bw ti iis pdi
  · intro ctx f' instrs accounts all_inner logs
    simp only [parse_instruction_events_from_grpc_transaction,
      walkOuter_filter_irrelevant ctx f', should_handle]

/-! ## Claim C7 — the PumpFun MIGRATE special case -/

/-- Is this event a `PumpFunMigrateEvent`? -/
def isMigrateEvent : DexEvent → Bool
  | .PumpFunMigrateEvent _ => true
  | _ => false

/-- Is this event a `PumpFunTradeEvent`? -/
def isTradeEvent : DexEvent → Bool
  | .PumpFunTradeEvent _ => true
  | _ => false

/-- A resolved key table: the PumpFun program id followed by 24 account
    keys. -/
def migrateKeys : List Pubkey :=
  [PUMPFUN_PROGRAM_ID,
   201, 202, 203, 204, 205, 206, 207, 208, 209, 210, 211, 212,
   213, 214, 215, 216, 217, 218, 219, 220, 221, 222, 223, 224]

/-- A PumpFun MIGRATE outer instruction over `migrateKeys`. -/
def migrateInstruction : CompiledInstruction :=
  { program_id_index := 0,
    accounts := [1, 2, 3, 4, 5, 6, 7, 8, 9, 10, 11, 12, 13, 14, 15, 16, 17,
                 18, 19, 20, 21, 22, 23, 24],
    data := PumpFun.MIGRATE_IX }

/-- An inner instruction whose payload is a PumpFun TRADE CPI event (not a
    migrate event): the 16-byte `TRADE_EVENT` discriminator followed by 250
    zero bytes (a decodable trade body). -/
def tradeInnerInstruction : CompiledInstruction :=
  { program_id_index := 0, accounts := [],
    data := PumpFun.TRADE_EVENT ++ List.replicate 250 0 }

/-- The inner-instruction group of `migrateInstruction`: a single trade CPI
    event and nothing else. -/
def migrateInnerGroup : InnerInstructions :=
  { index := 0, instructions := [tradeInnerInstruction] }

set_option maxRecDepth 100000 in
/-- C7 counterexample: for an outer PumpFun MIGRATE instruction whose inner
    group yields a PumpFun *trade* CPI event and no `PumpFunMigrateEvent`
    (no inner discriminator is the migrate-event discriminator), the walker
    still emits the outer MIGRATE event — the suppression check only asks
    whether *some* PumpFun inner CPI event decoded, not a migrate one. -/
theorem c7_migrate_counterexample :
    ((parse_event_from_grpc_instruction GlobalState.initial [Protocol.PumpFun]
        none migrateInstruction migrateKeys 0 0 none 0 0 none none none
        (some migrateInnerGroup) none).map isMigrateEvent = some true) ∧
    (migrateInnerGroup.instructions.all (fun i =>
        decide (i.data.take 16 ≠ PumpFun.COMPLETE_PUMP_AMM_MIGRATION_EVENT))
      = true) ∧
    ((find_inner_instruction_event Protocol.PumpFun default
        migrateInnerGroup.instructions).map isTradeEvent = some true) := by
  refine ⟨by decide, by decide, by decide⟩

/-- C7 amended: for an outer PumpFun MIGRATE instruction, the outer event is
    suppressed exactly when the inner-instruction scan yields no PumpFun
    inner CPI event at all; any decodable PumpFun inner event (a trade event
    included) lifts the suppression, not only a `PumpFunMigrateEvent`. -/
theorem c7_migrate_amended (gs : GlobalState) (protocols : List Protocol)
    (f : Option EventTypeFilter) (instruction : CompiledInstruction)
    (accounts : List Pubkey) (sig slot : Nat) (bt : Option Timestamp)
    (recv : Int) (oi : Int) (bw : Option Pubkey) (ti : Option Nat)
    (iis : InnerInstructions) (pdi : Option ProgramDataIndex)
    (hpid : accounts.get? instruction.program_id_index =
      some PUMPFUN_PROGRAM_ID)
    (hallow : Protocol.PumpFun ∈ protocols)
    (hdisc : instruction.data.take 8 = PumpFun.MIGRATE_IX)
    (hlen : 8 ≤ instruction.data.length) :
    (find_inner_instruction_event Protocol.PumpFun
        (EventMetadata.new sig slot (bt.getD ⟨0, 0⟩).seconds
          ((bt.getD ⟨0, 0⟩).seconds * 1000 +
            Int.tdiv (bt.getD ⟨0, 0⟩).nanos 1000000)
          default default PUMPFUN_PROGRAM_ID oi none recv ti)
        iis.instructions = none →
      parse_event_from_grpc_instruction gs protocols f instruction accounts
        sig slot bt recv oi none bw ti (some iis) pdi = none) ∧
    (∀ ev, find_inner_instruction_event Protocol.PumpFun
        (EventMetadata.new sig slot (bt.getD ⟨0, 0⟩).seconds
          ((bt.getD ⟨0, 0⟩).seconds * 1000 +
            Int.tdiv (bt.getD ⟨0, 0⟩).nanos 1000000)
          default default PUMPFUN_PROGRAM_ID oi none recv ti)
        iis.instructions = some ev →
      24 ≤ (resolve_account_pubkeys instruction.accounts accounts).length →
      (parse_event_from_grpc_instruction gs protocols f instruction accounts
        sig slot bt recv oi none bw ti (some iis) pdi).isSome = true) := by
  have hlt : instruction.program_id_index < accounts.length := by
    by_contra hge
    rw [List.get?_eq_none.mpr (by omega)] at hpid
    exact Option.noConfusion hpid
  have hpid' : accounts[instruction.program_id_index]? =
      some PUMPFUN_PROGRAM_ID := by
    rw [← List.get?_eq_getElem?]
    exact hpid
  have hmatch : EventDispatcher.match_protocol_by_program_id
      PUMPFUN_PROGRAM_ID = some Protocol.PumpFun := by decide
  have hsh : should_handle protocols f PUMPFUN_PROGRAM_ID = true := by
    simp only [should_handle, hmatch]
    exact List.elem_eq_true_of_mem hallow
  have hcu : EventDispatcher.is_compute_budget_program PUMPFUN_PROGRAM_ID
      = false := by decide
  have hA : (accounts.length ≤ instruction.program_id_index) = False :=
    eq_false (by omega)
  have hC : (PUMPFUN_PROGRAM_ID = RAYDIUM_AMM_V4_PROGRAM_ID) = False :=
    eq_false (by decide)
  have hD : (instruction.data.length < 8) = False := eq_false (by omega)
  have hmb : (PumpFun.MIGRATE_IX = PumpFun.BUY_IX) = False :=
    eq_false (by decide)
  have hms : (PumpFun.MIGRATE_IX = PumpFun.SELL_IX) = False :=
    eq_false (by decide)
  constructor
  · intro hscan
    by_cases hacc :
        (resolve_account_pubkeys instruction.accounts accounts).length < 24
    · simp [parse_event_from_grpc_instruction, hpid', hA, hsh, hcu, hC, hD,
        hmatch, hdisc, EventDispatcher.dispatch_instruction,
        EventDispatcher.protocolTag, PumpFun.parse_pumpfun_instruction_data,
        hmb, hms, PumpFun.parse_migrate_instruction, hacc]
    · simp [parse_event_from_grpc_instruction, hpid', hA, hsh, hcu, hC, hD,
        hmatch, hdisc, EventDispatcher.dispatch_instruction,
        EventDispatcher.protocolTag, PumpFun.parse_pumpfun_instruction_data,
        hmb, hms, PumpFun.parse_migrate_instruction, hacc, hscan]
  · intro ev hscan hacc
    have hacc' : ((resolve_account_pubkeys instruction.accounts
        accounts).length < 24) = False := eq_false (by omega)
    simp [parse_event_from_grpc_instruction, hpid', hA, hsh, hcu, hC, hD,
      hmatch, hdisc, EventDispatcher.dispatch_instruction,
      EventDispatcher.protocolTag, PumpFun.parse_pumpfun_instruction_data,
      hmb, hms, PumpFun.parse_migrate_instruction, hacc', hscan]

set_option maxRecDepth 100000 in
/-- Witness for the amended C7: with an empty inner-instruction group the
    outer MIGRATE event is suppressed. -/
theorem c7_migrate_amended_witness :
    parse_event_from_grpc_instruction GlobalState.initial [Protocol.PumpFun]
      none migrateInstruction migrateKeys 0 0 none 0 0 none none none
      (some { index := 0, instructions := [] }) none = none :=
  (c7_migrate_amended GlobalState.initial [Protocol.PumpFun] none
    migrateInstruction migrateKeys 0 0 none 0 0 none none
    { index := 0, instructions := [] } none (by decide) (by decide)
    (by decide) (by decide)).1 rfl

/-! ## Claim C6 — the single PumpSwap Buy scenario -/

/-- The initial accumulator is below a `foldl max`. -/
theorem init_le_foldl_max (l : List Nat) : ∀ a, a ≤ l.foldl max a := by
  induction l with
  | nil => intro a; exact Nat.le_refl a
  | cons x xs ih =>
    intro a
    exact le_trans (Nat.le_max_left a x) (ih (max a x))

/-- Every member is below a `foldl max`. -/
theorem mem_le_foldl_max (l : List Nat) (i : Nat) (h : i ∈ l) :
    ∀ a, i ≤ l.foldl max a := by
  induction l with
  | nil => cases h
  | cons x xs ih =>
    intro a
    cases List.mem_cons.mp h with
    | inl hx =>
      subst hx
      exact le_trans (Nat.le_max_right a i) (init_le_foldl_max xs (max a i))
    | inr hx => exact ih hx (max a x)

/-- When every index is in bounds, the resolved positional account list has
    exactly one entry per index. -/
theorem resolve_length_of_inbounds (idxs : List Nat) (accounts : List Pubkey)
    (h : ∀ i ∈ idxs, i < accounts.length) :
    (resolve_account_pubkeys idxs accounts).length = idxs.length := by
  induction idxs with
  | nil => rfl
  | cons i rest ih =>
    have hi : i < accounts.length := h i (List.mem_cons_self i rest)
    cases hg : accounts.get? i with
    | none =>
      have := List.get?_eq_none.mp hg
      omega
    | some v =>
      simp only [resolve_account_pubkeys, List.filterMap_cons, hg,
        List.length_cons]
      have := ih (fun j hj => h j (List.mem_cons_of_mem i hj))
      simpa [resolve_account_pubkeys] using this

/-- The key table after the walker's padding step: every instruction account
    index is in bounds, the old entries are unchanged, and the table only
    grew. -/
theorem padded_table_spec (keys : List Pubkey) (idxs : List Nat) :
    (∀ i ∈ idxs, i < (paddedAccounts keys idxs).length) ∧
    (∀ n, n < keys.length →
      (paddedAccounts keys idxs).get? n = keys.get? n) := by
  by_cases hpad : keys.length ≤ idxs.foldl max 0
  · rw [paddedAccounts, if_pos hpad]
    constructor
    · intro i hi
      have := mem_le_foldl_max idxs i hi 0
      simp only [List.length_append, List.length_replicate]
      omega
    · intro n hn
      exact List.get?_append hn
  · rw [paddedAccounts, if_neg hpad]
    refine ⟨?_, fun n _ => rfl⟩
    intro i hi
    have := mem_le_foldl_max idxs i hi 0
    omega

/-- Evaluation of the per-instruction parse on a PumpSwap Buy instruction
    carrying `base_amount_out = 1000`, `max_quote_amount_in = 2000`, with no
    inner instructions: exactly one `PumpSwapBuyEvent` with the decoded
    amounts (helper for C6). -/
theorem parse_buy_event_eval (gs : GlobalState) (protocols : List Protocol)
    (f : Option EventTypeFilter) (pidx : Nat) (idxs rest : List Nat)
    (accounts : List Pubkey) (sig slot : Nat) (bt : Option Timestamp)
    (recv : Int) (oi : Int) (bw : Option Pubkey) (ti : Option Nat)
    (pdi : Option ProgramDataIndex)
    (hpid : accounts.get? pidx = some PUMPSWAP_PROGRAM_ID)
    (hallow : Protocol.PumpSwap ∈ protocols)
    (hinb : ∀ i ∈ idxs, i < accounts.length)
    (hacc : 13 ≤ idxs.length) :
    ∃ ev : PumpSwapBuyEvent,
      parse_event_from_grpc_instruction gs protocols f
        ⟨pidx, idxs, buyData1000_2000 ++ rest⟩ accounts sig slot bt recv oi
        none bw ti none pdi = some (.PumpSwapBuyEvent ev) ∧
      ev.metadata.event_type = EventType.PumpSwapBuy ∧
      ev.metadata.outer_index = oi ∧
      ev.metadata.inner_index = none ∧
      ev.base_amount_out = 1000 ∧
      ev.max_quote_amount_in = 2000 := by
  have hlt : pidx < accounts.length := by
    by_contra hge
    rw [List.get?_eq_none.mpr (by omega)] at hpid
    exact Option.noConfusion hpid
  have hpid' : accounts[pidx]? = some PUMPSWAP_PROGRAM_ID := by
    rw [← List.get?_eq_getElem?]
    exact hpid
  have hmatch : EventDispatcher.match_protocol_by_program_id
      PUMPSWAP_PROGRAM_ID = some Protocol.PumpSwap := by decide
  have hsh : should_handle protocols f PUMPSWAP_PROGRAM_ID = true := by
    simp only [should_handle, hmatch]
    exact List.elem_eq_true_of_mem hallow
  have hcu : EventDispatcher.is_compute_budget_program PUMPSWAP_PROGRAM_ID
      = false := by decide
  have hA : (accounts.length ≤ pidx) = False := eq_false (by omega)
  have hC : (PUMPSWAP_PROGRAM_ID = RAYDIUM_AMM_V4_PROGRAM_ID) = False :=
    eq_false (by decide)
  have hD : ((buyData1000_2000 ++ rest).length < 8) = False :=
    eq_false (by simp [buyData1000_2000])
  have hres : (resolve_account_pubkeys idxs accounts).length = idxs.length :=
    resolve_length_of_inbounds idxs accounts hinb
  have hresl : ((resolve_account_pubkeys idxs accounts).length < 13) = False :=
    eq_false (by omega)
  have htake : (buyData1000_2000 ++ rest).take 8 = PumpSwap.BUY_IX := by
    simp [buyData1000_2000, PumpSwap.BUY_IX]
  have hdrop : (buyData1000_2000 ++ rest).drop 8 =
      [232, 3, 0, 0, 0, 0, 0, 0, 208, 7, 0, 0, 0, 0, 0, 0] ++ rest := by
    simp [buyData1000_2000]
  have hguard : (rest.length + 1 + 1 + 1 + 1 + 1 + 1 + 1 + 1 + 1 + 1 + 1 + 1 +
      1 + 1 + 1 + 1 < 16 ∨ idxs.length < 13) = False :=
    eq_false (by rintro (h | h) <;> omega)
  have hE : (8 ≤ buyData1000_2000.length + rest.length) = True :=
    eq_true (by simp [buyData1000_2000]; omega)
  simp [parse_event_from_grpc_instruction, hpid', hA, hsh, hcu, hC, hD,
    hmatch, htake, hdrop, EventDispatcher.dispatch_instruction,
    EventDispatcher.protocolTag, PumpSwap.parse_pumpswap_instruction_data,
    PumpSwap.parse_buy_instruction, hresl, read_u64_le, leNat, process_event,
    DexEvent.mapMetadata, EventMetadata.new, hres, hguard, hE,
    enrich_event_from_program_data, elapsed_micros_since]

/-- With fewer than 13 positional accounts the Buy decode fails and the
    per-instruction parse yields no event (helper for C6). -/
theorem parse_buy_event_few_accounts (gs : GlobalState)
    (protocols : List Protocol) (f : Option EventTypeFilter) (pidx : Nat)
    (idxs rest : List Nat) (accounts : List Pubkey) (sig slot : Nat)
    (bt : Option Timestamp) (recv : Int) (oi : Int) (bw : Option Pubkey)
    (ti : Option Nat) (pdi : Option ProgramDataIndex)
    (hpid : accounts.get? pidx = some PUMPSWAP_PROGRAM_ID)
    (hacc : (resolve_account_pubkeys idxs accounts).length < 13) :
    parse_event_from_grpc_instruction gs protocols f
      ⟨pidx, idxs, buyData1000_2000 ++ rest⟩ accounts sig slot bt recv oi
      none bw ti none pdi = none := by
  have hlt : pidx < accounts.length := by
    by_contra hge
    rw [List.get?_eq_none.mpr (by omega)] at hpid
    exact Option.noConfusion hpid
  have hpid' : accounts[pidx]? = some PUMPSWAP_PROGRAM_ID := by
    rw [← List.get?_eq_getElem?]
    exact hpid
  have hmatch : EventDispatcher.match_protocol_by_program_id
      PUMPSWAP_PROGRAM_ID = some Protocol.PumpSwap := by decide
  have hcu : EventDispatcher.is_compute_budget_program PUMPSWAP_PROGRAM_ID
      = false := by decide
  have hA : (accounts.length ≤ pidx) = False := eq_false (by omega)
  have hC : (PUMPSWAP_PROGRAM_ID = RAYDIUM_AMM_V4_PROGRAM_ID) = False :=
    eq_false (by decide)
  have htake : (buyData1000_2000 ++ rest).take 8 = PumpSwap.BUY_IX := by
    simp [buyData1000_2000, PumpSwap.BUY_IX]
  have hresl : ((resolve_account_pubkeys idxs accounts).length < 13) = True :=
    eq_true hacc
  by_cases hsh : should_handle protocols f PUMPSWAP_PROGRAM_ID = true
  · simp [parse_event_from_grpc_instruction, hpid', hA, hsh, hcu, hC, hmatch,
      htake, EventDispatcher.dispatch_instruction, EventDispatcher.protocolTag,
      PumpSwap.parse_pumpswap_instruction_data, PumpSwap.parse_buy_instruction,
      hresl]
  · have hsh' : should_handle protocols f PUMPSWAP_PROGRAM_ID = false := by
      cases h : should_handle protocols f PUMPSWAP_PROGRAM_ID with
      | false => rfl
      | true => exact absurd h hsh
    simp [parse_event_from_grpc_instruction, hpid', hA, hsh']

/-- With fewer than 16 payload bytes after the Buy discriminator the decode
    fails and the per-instruction parse yields no event (helper for C6). -/
theorem parse_buy_event_short_payload (gs : GlobalState)
    (protocols : List Protocol) (f : Option EventTypeFilter) (pidx : Nat)
    (idxs payload : List Nat) (accounts : List Pubkey) (sig slot : Nat)
    (bt : Option Timestamp) (recv : Int) (oi : Int) (bw : Option Pubkey)
    (ti : Option Nat) (pdi : Option ProgramDataIndex)
    (hpid : accounts.get? pidx = some PUMPSWAP_PROGRAM_ID)
    (hshort : payload.length < 16) :
    parse_event_from_grpc_instruction gs protocols f
      ⟨pidx, idxs, PumpSwap.BUY_IX ++ payload⟩ accounts sig slot bt recv oi
      none bw ti none pdi = none := by
  have hlt : pidx < accounts.length := by
    by_contra hge
    rw [List.get?_eq_none.mpr (by omega)] at hpid
    exact Option.noConfusion hpid
  have hpid' : accounts[pidx]? = some PUMPSWAP_PROGRAM_ID := by
    rw [← List.get?_eq_getElem?]
    exact hpid
  have hmatch : EventDispatcher.match_protocol_by_program_id
      PUMPSWAP_PROGRAM_ID = some Protocol.PumpSwap := by decide
  have hcu : EventDispatcher.is_compute_budget_program PUMPSWAP_PROGRAM_ID
      = false := by decide
  have hA : (accounts.length ≤ pidx) = False := eq_false (by omega)
  have hC : (PUMPSWAP_PROGRAM_ID = RAYDIUM_AMM_V4_PROGRAM_ID) = False :=
    eq_false (by decide)
  have htake : (PumpSwap.BUY_IX ++ payload).take 8 = PumpSwap.BUY_IX := by
    simp [PumpSwap.BUY_IX]
  have hdrop : (PumpSwap.BUY_IX ++ payload).drop 8 = payload := by
    simp [PumpSwap.BUY_IX]
  have hshort' : (payload.length < 16) = True := eq_true hshort
  by_cases hsh : should_handle protocols f PUMPSWAP_PROGRAM_ID = true
  · simp [parse_event_from_grpc_instruction, hpid', hA, hsh, hcu, hC, hmatch,
      htake, hdrop, EventDispatcher.dispatch_instruction,
      EventDispatcher.protocolTag, PumpSwap.parse_pumpswap_instruction_data,
      PumpSwap.parse_buy_instruction, hshort']
  · have hsh' : should_handle protocols f PUMPSWAP_PROGRAM_ID = false := by
      cases h : should_handle protocols f PUMPSWAP_PROGRAM_ID with
      | false => rfl
      | true => exact absurd h hsh
    simp [parse_event_from_grpc_instruction, hpid', hA, hsh']

/-- Evaluation of the walker on a transaction with a single outer
    instruction, no inner groups and no logs: it delivers exactly the
    per-instruction parse of that instruction over the padded key table
    (helper for C6). -/
theorem walker_singleton_eval (ctx : TxCtx) (instr : CompiledInstruction)
    (keys : List Pubkey) (pid : Pubkey)
    (hpid : keys.get? instr.program_id_index = some pid)
    (hsh : should_handle ctx.protocols ctx.event_type_filter pid = true) :
    parse_instruction_events_from_grpc_transaction ctx [instr] keys [] [] =
      match parse_event_from_grpc_instruction ctx.gs ctx.protocols
        ctx.event_type_filter instr (paddedAccounts keys instr.accounts)
        ctx.signature (ctx.slot.getD 0) ctx.block_time ctx.recv_us 0 none
        ctx.bot_wallet ctx.transaction_index none none with
      | some ev => [ev]
      | none => [] := by
  have hmem : pid ∈ keys := List.get?_mem hpid
  have hany : keys.any
      (fun a => should_handle ctx.protocols ctx.event_type_filter a) = true :=
    List.any_eq_true.mpr ⟨pid, hmem, hsh⟩
  simp only [parse_instruction_events_from_grpc_transaction, hany, if_true,
    walkOuter, hpid, lazyProgramDataIndex, List.isEmpty_nil, List.find?_nil,
    List.length_singleton]
  simp [hsh]

/-- C6: a transaction with exactly one outer instruction whose program is
    `PUMPSWAP_PROGRAM_ID`, whose data is the Buy discriminator followed by
    `base_amount_out = 1000` and `max_quote_amount_in = 2000` (little-endian
    u64 at payload offsets 0..8 and 8..16), with at least 13 positional
    accounts, no inner instructions and no logs, yields exactly one
    `PumpSwapBuyEvent` with `event_type = PumpSwapBuy`, `outer_index = 0`,
    `inner_index = none` and the decoded amounts; with fewer than 13
    accounts, or fewer than 16 payload bytes after the discriminator, no
    event is emitted. -/
theorem c6_single_pumpswap_buy (gs : GlobalState) (protocols : List Protocol)
    (f : Option EventTypeFilter) (keys : List Pubkey) (pidx : Nat)
    (idxs rest : List Nat) (sig : Nat) (slot : Option Nat)
    (bt : Option Timestamp) (recv : Int) (bw : Option Pubkey)
    (ti : Option Nat)
    (hpid : keys.get? pidx = some PUMPSWAP_PROGRAM_ID)
    (hallow : Protocol.PumpSwap ∈ protocols) :
    (13 ≤ idxs.length →
      ∃ ev : PumpSwapBuyEvent,
        parse_instruction_events_from_grpc_transaction
          ⟨gs, protocols, f, sig, slot, bt, recv, bw, ti⟩
          [⟨pidx, idxs, buyData1000_2000 ++ rest⟩] keys [] [] =
          [.PumpSwapBuyEvent ev] ∧
        ev.metadata.event_type = EventType.PumpSwapBuy ∧
        ev.metadata.outer_index = 0 ∧
        ev.metadata.inner_index = none ∧
        ev.base_amount_out = 1000 ∧
        ev.max_quote_amount_in = 2000) ∧
    (idxs.length < 13 →
      parse_instruction_events_from_grpc_transaction
        ⟨gs, protocols, f, sig, slot, bt, recv, bw, ti⟩
        [⟨pidx, idxs, buyData1000_2000 ++ rest⟩] keys [] [] = []) ∧
    (∀ payload : List Nat, payload.length < 16 →
      parse_instruction_events_from_grpc_transaction
        ⟨gs, protocols, f, sig, slot, bt, recv, bw, ti⟩
        [⟨pidx, idxs, PumpSwap.BUY_IX ++ payload⟩] keys [] [] = []) := by
  have hmatch : EventDispatcher.match_protocol_by_program_id
      PUMPSWAP_PROGRAM_ID = some Protocol.PumpSwap := by decide
  have hsh : should_handle protocols f PUMPSWAP_PROGRAM_ID = true := by
    simp only [should_handle, hmatch]
    exact List.elem_eq_true_of_mem hallow
  have hlt : pidx < keys.length := by
    by_contra hge
    rw [List.get?_eq_none.mpr (by omega)] at hpid
    exact Option.noConfusion hpid
  have hpad := padded_table_spec keys idxs
  have hpidPad : (paddedAccounts keys idxs).get? pidx =
      some PUMPSWAP_PROGRAM_ID := by
    rw [hpad.2 pidx hlt]
    exact hpid
  refine ⟨?_, ?_, ?_⟩
  · intro hacc
    obtain ⟨ev, hev, h1, h2, h3, h4, h5⟩ := parse_buy_event_eval gs protocols
      f pidx idxs rest (paddedAccounts keys idxs) sig (slot.getD 0) bt recv
      0 bw ti none hpidPad hallow hpad.1 hacc
    refine ⟨ev, ?_, h1, h2, h3, h4, h5⟩
    rw [walker_singleton_eval ⟨gs, protocols, f, sig, slot, bt, recv, bw, ti⟩
      ⟨pidx, idxs, buyData1000_2000 ++ rest⟩ keys PUMPSWAP_PROGRAM_ID hpid
      hsh]
    rw [hev]
  · intro hacc
    have hresl : (resolve_account_pubkeys idxs
        (paddedAccounts keys idxs)).length < 13 := by
      have := List.length_filterMap_le
        (fun idx => (paddedAccounts keys idxs).get? idx) idxs
      simp only [resolve_account_pubkeys]
      omega
    rw [walker_singleton_eval ⟨gs, protocols, f, sig, slot, bt, recv, bw, ti⟩
      ⟨pidx, idxs, buyData1000_2000 ++ rest⟩ keys PUMPSWAP_PROGRAM_ID hpid
      hsh]
    rw [parse_buy_event_few_accounts gs protocols f pidx idxs rest
      (paddedAccounts keys idxs) sig (slot.getD 0) bt recv 0 bw ti none
      hpidPad hresl]
  · intro payload hshort
    rw [walker_singleton_eval ⟨gs, protocols, f, sig, slot, bt, recv, bw, ti⟩
      ⟨pidx, idxs, PumpSwap.BUY_IX ++ payload⟩ keys PUMPSWAP_PROGRAM_ID hpid
      hsh]
    rw [parse_buy_event_short_payload gs protocols f pidx idxs payload
      (paddedAccounts keys idxs) sig (slot.getD 0) bt recv 0 bw ti none
      hpidPad hshort]

set_option maxRecDepth 100000 in
/-- Witness for C6: the concrete single-Buy transaction over
    `sampleBuyKeys` yields exactly one `PumpSwapBuyEvent` with the decoded
    amounts, and an empty payload yields no event. -/
theorem c6_single_pumpswap_buy_witness :
    (∃ ev : PumpSwapBuyEvent,
      parse_instruction_events_from_grpc_transaction
        ⟨GlobalState.initial, [Protocol.PumpSwap], none, 0, none, none, 0,
          none, none⟩
        [⟨0, [1, 2, 3, 4, 5, 6, 7, 8, 9, 10, 11, 12, 13],
          buyData1000_2000 ++ []⟩] sampleBuyKeys [] [] =
        [.PumpSwapBuyEvent ev] ∧
      ev.metadata.event_type = EventType.PumpSwapBuy ∧
      ev.metadata.outer_index = 0 ∧
      ev.metadata.inner_index = none ∧
      ev.base_amount_out = 1000 ∧
      ev.max_quote_amount_in = 2000) ∧
    parse_instruction_events_from_grpc_transaction
      ⟨GlobalState.initial, [Protocol.PumpSwap], none, 0, none, none, 0,
        none, none⟩
      [⟨0, [1, 2, 3, 4, 5, 6, 7, 8, 9, 10, 11, 12, 13],
        PumpSwap.BUY_IX ++ []⟩] sampleBuyKeys [] [] = [] :=
  ⟨(c6_single_pumpswap_buy GlobalState.initial [Protocol.PumpSwap] none
      sampleBuyKeys 0 [1, 2, 3, 4, 5, 6, 7, 8, 9, 10, 11, 12, 13] [] 0 none
      none 0 none none (by decide) (by decide)).1 (by decide),
   (c6_single_pumpswap_buy GlobalState.initial [Protocol.PumpSwap] none
      sampleBuyKeys 0 [1, 2, 3, 4, 5, 6, 7, 8, 9, 10, 11, 12, 13] [] 0 none
      none 0 none none (by decide) (by decide)).2.2 [] (by decide)⟩

/-- The scan predicate of `find_program_data_in_span`: log line `idx`
    qualifies when it is not inside a strictly deeper child span and is a
    `"Program data:"` line. -/
def pdQualifies (span : InvocationSpan) (spans : List InvocationSpan)
    (logs : List LogLine) (idx : Nat) : Bool :=
  !is_within_child_span idx span spans &&
    (extract_program_data (logs.getD idx .other)).isSome

theorem find_range_first (p : Nat → Bool) (n : Nat) :
    ∀ s k : Nat, ((List.range' s n).find? p = some k ↔
      s ≤ k ∧ k < s + n ∧ p k = true ∧ ∀ j, s ≤ j → j < k → p j = false) := by
  induction n with
  | zero =>
    intro s k
    simp only [List.range']
    constructor
    · intro h
      exact absurd h (by simp)
    · rintro ⟨h1, h2, -, -⟩
      omega
  | succ m ih =>
    intro s k
    rw [List.range'_succ]
    by_cases hp : p s = true
    · rw [List.find?_cons_of_pos _ hp]
      constructor
      · intro h
        have hk : s = k := by injection h
        subst hk
        exact ⟨Nat.le_refl s, by omega, hp, fun j hj1 hj2 => by omega⟩
      · rintro ⟨h1, h2, h3, h4⟩
        have hk : k = s := by
          by_contra hne
          have hlt : s < k := by omega
          have hfalse := h4 s (Nat.le_refl s) hlt
          rw [hfalse] at hp
          cases hp
        subst hk
        rfl
    · rw [List.find?_cons_of_neg _ hp]
      rw [ih (s + 1) k]
      have hp' : p s = false := by
        simp only [Bool.not_eq_true] at hp
        exact hp
      constructor
      · rintro ⟨h1, h2, h3, h4⟩
        refine ⟨by omega, by omega, h3, fun j hj1 hj2 => ?_⟩
        rcases Nat.lt_or_ge j (s + 1) with hj | hj
        · have hjs : j = s := by omega
          subst hjs
          exact hp'
        · exact h4 j hj hj2
      · rintro ⟨h1, h2, h3, h4⟩
        have hks : s ≠ k := by
          rintro rfl
          rw [h3] at hp'
          cases hp'
        exact ⟨by omega, by omega, h3, fun j hj1 hj2 => h4 j (by omega) hj2⟩

theorem findPDGo_eq_find (span : InvocationSpan) (spans : List InvocationSpan)
    (logs : List LogLine) (count : Nat) :
    ∀ start, findPDGo span spans logs start count =
      ((List.range' start count).find? (pdQualifies span spans logs)).bind
        (fun idx => (extract_program_data (logs.getD idx .other)).map
          (fun b64 => { base64 := b64, program_id := span.program_id,
                        depth := span.depth, log_index := idx })) := by
  induction count with
  | zero =>
    intro start
    rfl
  | succ m ih =>
    intro start
    rw [List.range'_succ]
    simp only [findPDGo]
    by_cases hc : is_within_child_span start span spans = true
    · have hq : pdQualifies span spans logs start = false := by
        simp [pdQualifies, hc]
      rw [List.find?_cons_of_neg _ (by simp [hq])]
      simp only [hc, if_true]
      exact ih (start + 1)
    · have hc' : is_within_child_span start span spans = false := by
        simp only [Bool.not_eq_true] at hc
        exact hc
      simp only [hc', Bool.false_eq_true, if_false]
      cases he : extract_program_data (logs.getD start .other) with
      | some b64 =>
        have hq : pdQualifies span spans logs start = true := by
          simp only [pdQualifies, hc', he, Bool.not_false, Bool.true_and,
            Option.isSome_some]
        rw [List.find?_cons_of_pos _ hq]
        simp only [Option.some_bind]
        rw [he]
        rfl
      | none =>
        have hq : pdQualifies span spans logs start = false := by
          simp only [pdQualifies, he, Option.isSome_none, Bool.and_false]
        rw [List.find?_cons_of_neg _ (by simp [hq])]
        exact ih (start + 1)

/-- C5: the `ProgramDataItem` attributed to an invocation span is the first
    `"Program data:"` log line whose index lies inside the span (clamped to
    the log range) and does not fall inside any strictly deeper child span:
    a `some item` result is exactly a qualifying line all of whose earlier
    in-span indices are child-span lines or non-data lines, and a `none`
    result is exactly the absence of any qualifying line in the span. -/
theorem c5_first_program_data_in_span (span : InvocationSpan)
    (spans : List InvocationSpan) (logs : List LogLine) :
    (∀ item : ProgramDataItem,
      find_program_data_in_span span spans logs = some item ↔
        (span.start ≤ item.log_index ∧ item.log_index ≤ span.end_ ∧
         item.log_index < logs.length ∧
         is_within_child_span item.log_index span spans = false ∧
         extract_program_data (logs.getD item.log_index .other) =
           some item.base64 ∧
         item.program_id = span.program_id ∧ item.depth = span.depth ∧
         ∀ j, span.start ≤ j → j < item.log_index →
           is_within_child_span j span spans = true ∨
           extract_program_data (logs.getD j .other) = none)) ∧
    (find_program_data_in_span span spans logs = none ↔
      ∀ j, span.start ≤ j → j ≤ span.end_ → j < logs.length →
        is_within_child_span j span spans = true ∨
        extract_program_data (logs.getD j .other) = none) := by
  by_cases hg : logs.isEmpty = true ∨ logs.length ≤ span.start
  · have hfind : find_program_data_in_span span spans logs = none := by
      simp only [find_program_data_in_span]
      rw [if_pos hg]
    constructor
    · intro item
      rw [hfind]
      constructor
      · intro h
        exact absurd h (by simp)
      · rintro ⟨h1, h2, h3, -⟩
        exfalso
        rcases hg with hE | hL
        · rw [List.isEmpty_iff] at hE
          subst hE
          simp at h3
        · omega
    · rw [hfind]
      constructor
      · intro _ j hj1 hj2 hj3
        exfalso
        rcases hg with hE | hL
        · rw [List.isEmpty_iff] at hE
          subst hE
          simp at hj3
        · omega
      · intro _
        rfl
  · have hgE : logs.isEmpty = false := by
      cases hE : logs.isEmpty
      · rfl
      · exact absurd (Or.inl hE) hg
    have hgs : span.start < logs.length := by
      rcases Nat.lt_or_ge span.start logs.length with h | h
      · exact h
      · exact absurd (Or.inr h) hg
    have hL0 : 0 < logs.length := by omega
    have hfind : find_program_data_in_span span spans logs =
        ((List.range' span.start
            (min span.end_ (logs.length - 1) + 1 - span.start)).find?
          (pdQualifies span spans logs)).bind
          (fun idx => (extract_program_data (logs.getD idx .other)).map
            (fun b64 => { base64 := b64, program_id := span.program_id,
                          depth := span.depth, log_index := idx })) := by
      simp only [find_program_data_in_span]
      rw [if_neg hg]
      exact findPDGo_eq_find span spans logs _ span.start
    set n := min span.end_ (logs.length - 1) + 1 - span.start with hn
    constructor
    · intro item
      obtain ⟨b64, pid, dep, li⟩ := item
      rw [hfind]
      constructor
      · intro h
        rw [Option.bind_eq_some] at h
        obtain ⟨idx, hfd, hmap⟩ := h
        rw [find_range_first] at hfd
        obtain ⟨hi1, hi2, hi3, hi4⟩ := hfd
        rw [Option.map_eq_some'] at hmap
        obtain ⟨b, hb, hitem⟩ := hmap
        injection hitem with hb64 hpid hdep hli
        subst hb64
        subst hpid
        subst hdep
        subst hli
        dsimp only
        have hchild : is_within_child_span idx span spans = false := by
          simp only [pdQualifies, Bool.and_eq_true, Bool.not_eq_true'] at hi3
          exact hi3.1
        refine ⟨hi1, by omega, by omega, hchild, hb, rfl, rfl, ?_⟩
        intro j hj1 hj2
        have hqj := hi4 j hj1 hj2
        by_cases hcj : is_within_child_span j span spans = true
        · exact Or.inl hcj
        · right
          have hcj' : is_within_child_span j span spans = false := by
            simp only [Bool.not_eq_true] at hcj
            exact hcj
          simp only [pdQualifies, hcj', Bool.not_false, Bool.true_and] at hqj
          cases hext : extract_program_data (logs.getD j .other) with
          | none => rfl
          | some b' =>
            rw [hext] at hqj
            cases hqj
      · rintro ⟨h1, h2, h3, h4, h5, h6, h7, h8⟩
        subst h6
        subst h7
        dsimp only at h1 h2 h3 h4 h5 h8
        rw [Option.bind_eq_some]
        refine ⟨li, ?_, ?_⟩
        · rw [find_range_first]
          refine ⟨h1, by omega, ?_, ?_⟩
          · simp only [pdQualifies, h4, h5, Bool.not_false, Bool.true_and,
              Option.isSome_some]
          · intro j hj1 hj2
            rcases h8 j hj1 hj2 with hc | he
            · simp only [pdQualifies, hc, Bool.not_true, Bool.false_and]
            · simp only [pdQualifies, he, Option.isSome_none, Bool.and_false]
        · rw [h5]
          rfl
    · rw [hfind]
      constructor
      · intro h j hj1 hj2 hj3
        cases hfd : (List.range' span.start n).find?
            (pdQualifies span spans logs) with
        | some idx =>
          exfalso
          have hqi := List.find?_some hfd
          rw [hfd] at h
          simp only [Option.some_bind] at h
          simp only [pdQualifies, Bool.and_eq_true] at hqi
          cases hext : extract_program_data (logs.getD idx .other) with
          | some b =>
            rw [hext] at h
            simp at h
          | none =>
            rw [hext] at hqi
            simp at hqi
        | none =>
          have hjmem : j ∈ List.range' span.start n := by
            rw [List.mem_range'_1]
            exact ⟨hj1, by omega⟩
          have hqj := List.find?_eq_none.mp hfd j hjmem
          by_cases hcj : is_within_child_span j span spans = true
          · exact Or.inl hcj
          · right
            have hcj' : is_within_child_span j span spans = false := by
              simp only [Bool.not_eq_true] at hcj
              exact hcj
            simp only [pdQualifies, hcj', Bool.not_false, Bool.true_and,
              Bool.not_eq_true] at hqj
            cases hext : extract_program_data (logs.getD j .other) with
            | none => rfl
            | some b' =>
              rw [hext] at hqj
              cases hqj
      · intro hall
        cases hfd : (List.range' span.start n).find?
            (pdQualifies span spans logs) with
        | none =>
          rfl
        | some idx =>
          exfalso
          have hqi := List.find?_some hfd
          have hmem := List.mem_of_find?_eq_some hfd
          rw [List.mem_range'_1] at hmem
          have hidx2 : idx ≤ span.end_ := by omega
          have hidx3 : idx < logs.length := by omega
          simp only [pdQualifies, Bool.and_eq_true, Bool.not_eq_true'] at hqi
          rcases hall idx hmem.1 hidx2 hidx3 with hc | he
          · rw [hqi.1] at hc
            cases hc
          · rw [he] at hqi
            exact absurd hqi.2 (by decide)

/-- A concrete log list for exercising the span scan: an outer invoke at
    depth 1 containing a child span at depth 2 with its own data line,
    followed by two data lines in the outer span's own range. -/
def c5Logs : List LogLine :=
  [.invoke 7 1, .invoke 8 2, .programData "inner", .terminator,
   .programData "first", .programData "second", .terminator]

def c5Span : InvocationSpan := { program_id := 7, depth := 1, start := 0, end_ := 6 }

def c5Spans : List InvocationSpan :=
  [c5Span, { program_id := 8, depth := 2, start := 1, end_ := 3 }]

/-- Witness for C5: on the concrete logs the scan returns the first own-range
    data line (`"first"` at index 4, skipping the child's line at index 2),
    and the characterization confirms index 2 is inside a child span. -/
theorem c5_first_program_data_witness :
    find_program_data_in_span c5Span c5Spans c5Logs =
      some { base64 := "first", program_id := 7, depth := 1, log_index := 4 } ∧
    (is_within_child_span 2 c5Span c5Spans = true ∨
      extract_program_data (c5Logs.getD 2 .other) = none) := by
  have h := ((c5_first_program_data_in_span c5Span c5Spans c5Logs).1
    { base64 := "first", program_id := 7, depth := 1, log_index := 4 }).mp
    (by decide)
  exact ⟨by decide, h.2.2.2.2.2.2.2 2 (by decide) (by decide)⟩

theorem modifyAt_get? {α : Type} (f : α → α) :
    ∀ (n : Nat) (l : List α) (j : Nat),
    (modifyAt f n l).get? j = if j = n then (l.get? j).map f else l.get? j := by
  intro n l
  induction l generalizing n with
  | nil =>
    intro j
    cases n <;> simp [modifyAt]
  | cons a t ih =>
    intro j
    cases n with
    | zero =>
      cases j with
      | zero => simp [modifyAt]
      | succ k => simp [modifyAt]
    | succ m =>
      cases j with
      | zero => simp [modifyAt]
      | succ k =>
        simp only [modifyAt, List.get?_cons_succ, ih m k]
        by_cases hk : k = m
        · simp [hk]
        · simp [hk, fun h => hk (Nat.succ_injective h)]

theorem foldl_modifyAt_get? {α : Type} (f : α → α) (hf : ∀ a, f (f a) = f a) :
    ∀ (st : List Nat) (sp : List α) (j : Nat),
    (st.foldl (fun acc i => modifyAt f i acc) sp).get? j =
      if j ∈ st then (sp.get? j).map f else sp.get? j := by
  intro st
  induction st with
  | nil =>
    intro sp j
    simp
  | cons i t ih =>
    intro sp j
    simp only [List.foldl_cons]
    rw [ih (modifyAt f i sp) j, modifyAt_get? f i sp j]
    by_cases hji : j = i
    · subst hji
      rw [if_pos rfl, if_pos (List.mem_cons_self j t)]
      by_cases hjt : j ∈ t
      · rw [if_pos hjt]
        cases sp.get? j with
        | none => rfl
        | some a => simp [hf]
      · rw [if_neg hjt]
    · rw [if_neg hji]
      by_cases hjt : j ∈ t
      · rw [if_pos hjt, if_pos (List.mem_cons_of_mem i hjt)]
      · have hnm : j ∉ i :: t := by
          intro hmem
          rcases List.mem_cons.mp hmem with h | h
          · exact hji h
          · exact hjt h
        rw [if_neg hjt, if_neg hnm]

/-- C4: `build_program_data_index` produces an outer table of exactly
    `outer_len` slots (any further index reads `none`, so no out-of-bounds
    access); slot `i` holds exactly the program data found for the `i`-th
    `depth == 1` invocation span in encounter order, outer slots beyond the
    number of such spans stay unattributed (`some none`); and
    `parse_invocation_spans` closes every span still open at the end of the
    log at the last line index, leaving all other spans untouched. -/
theorem c4_outer_span_attribution (logs : List LogLine) (outer_len : Nat)
    (inner_instructions : List InnerInstructions) :
    ((build_program_data_index logs outer_len inner_instructions).outer.length
        = outer_len) ∧
    (∀ i, outer_len ≤ i →
      (build_program_data_index logs outer_len inner_instructions).outer.get? i
        = none) ∧
    (∀ i, i < outer_len →
      (build_program_data_index logs outer_len inner_instructions).outer.get? i
        = some (match ((parse_invocation_spans logs).filter
              (fun s => decide (s.depth = 1))).get? i with
            | some s =>
              find_program_data_in_span s (parse_invocation_spans logs) logs
            | none => none)) ∧
    (∀ i, ((parse_invocation_spans logs).filter
          (fun s => decide (s.depth = 1))).length ≤ i → i < outer_len →
      (build_program_data_index logs outer_len inner_instructions).outer.get? i
        = some none) ∧
    (∀ j, j ∈ (spansGo [] [] logs.enum).2 →
      (parse_invocation_spans logs).get? j =
        ((spansGo [] [] logs.enum).1.get? j).map
          (fun s => { s with end_ := logs.length - 1 })) ∧
    (∀ j, j ∉ (spansGo [] [] logs.enum).2 →
      (parse_invocation_spans logs).get? j =
        (spansGo [] [] logs.enum).1.get? j) := by
  have hlen :
      (build_program_data_index logs outer_len inner_instructions).outer.length
        = outer_len := by
    by_cases hgd : logs.isEmpty = true ∨ outer_len = 0
    · simp only [build_program_data_index]
      rw [if_pos hgd]
      simp
    · simp only [build_program_data_index]
      rw [if_neg hgd]
      simp
  have hattr : ∀ i, i < outer_len →
      (build_program_data_index logs outer_len inner_instructions).outer.get? i
        = some (match ((parse_invocation_spans logs).filter
              (fun s => decide (s.depth = 1))).get? i with
            | some s =>
              find_program_data_in_span s (parse_invocation_spans logs) logs
            | none => none) := by
    intro i hi
    by_cases hgd : logs.isEmpty = true ∨ outer_len = 0
    · have hrepl :
          (build_program_data_index logs outer_len inner_instructions).outer =
            List.replicate outer_len none := by
        simp only [build_program_data_index]
        rw [if_pos hgd]
      rw [hrepl, List.get?_eq_getElem?]
      rw [List.getElem?_replicate]
      rw [if_pos hi]
      rcases hgd with hE | h0
      · rw [List.isEmpty_iff] at hE
        subst hE
        rfl
      · omega
    · have houter :
          (build_program_data_index logs outer_len inner_instructions).outer =
            (List.range outer_len).map (fun i =>
              match ((parse_invocation_spans logs).filter
                  (fun s => decide (s.depth = 1))).get? i with
              | some s =>
                find_program_data_in_span s (parse_invocation_spans logs) logs
              | none => none) := by
        simp only [build_program_data_index]
        rw [if_neg hgd]
      rw [houter, List.get?_map, List.get?_range hi]
      rfl
  have hopen : ∀ j, j ∈ (spansGo [] [] logs.enum).2 →
      (parse_invocation_spans logs).get? j =
        ((spansGo [] [] logs.enum).1.get? j).map
          (fun s => { s with end_ := logs.length - 1 }) := by
    intro j hj
    rcases hsg : spansGo [] [] logs.enum with ⟨sp, st⟩
    rw [hsg] at hj
    simp only [parse_invocation_spans, hsg]
    rw [foldl_modifyAt_get? (fun s => { s with end_ := logs.length - 1 })
      (fun a => rfl) st sp j]
    rw [if_pos hj]
  have hclosed : ∀ j, j ∉ (spansGo [] [] logs.enum).2 →
      (parse_invocation_spans logs).get? j =
        (spansGo [] [] logs.enum).1.get? j := by
    intro j hj
    rcases hsg : spansGo [] [] logs.enum with ⟨sp, st⟩
    rw [hsg] at hj
    simp only [parse_invocation_spans, hsg]
    rw [foldl_modifyAt_get? (fun s => { s with end_ := logs.length - 1 })
      (fun a => rfl) st sp j]
    rw [if_neg hj]
  refine ⟨hlen, ?_, hattr, ?_, hopen, hclosed⟩
  · intro i hi
    exact List.get?_eq_none.mpr (by rw [hlen]; exact hi)
  · intro i hfl hi
    rw [hattr i hi]
    rw [List.get?_eq_none.mpr hfl]

/-- A concrete log list with two depth-1 spans: the first closed by a
    terminator, the second still open at the end of the log. -/
def c4Logs : List LogLine :=
  [.invoke 1 1, .programData "A", .terminator, .invoke 2 1, .programData "B"]

/-- Witness for C4: on the concrete logs with three outer slots, slot 0
    receives the first depth-1 span's data, slot 2 (beyond the two spans)
    stays unattributed, and the still-open second span is closed at the
    last log index. -/
theorem c4_outer_span_attribution_witness :
    (build_program_data_index c4Logs 3 []).outer.get? 0 =
      some (match ((parse_invocation_spans c4Logs).filter
            (fun s => decide (s.depth = 1))).get? 0 with
          | some s =>
            find_program_data_in_span s (parse_invocation_spans c4Logs) c4Logs
          | none => none) ∧
    (build_program_data_index c4Logs 3 []).outer.get? 2 = some none ∧
    (parse_invocation_spans c4Logs).get? 1 =
      ((spansGo [] [] c4Logs.enum).1.get? 1).map
        (fun s => { s with end_ := c4Logs.length - 1 }) :=
  ⟨(c4_outer_span_attribution c4Logs 3 []).2.2.1 0 (by decide),
   (c4_outer_span_attribution c4Logs 3 []).2.2.2.1 2 (by decide) (by decide),
   (c4_outer_span_attribution c4Logs 3 []).2.2.2.2.1 1 (by decide)⟩

/-- The registry invariant maintained by the sequential insert operations:
    the atomic counter tracks the map size, the size stays within one entry
    of `MAX_SIGNATURES`, and signatures are unique keys. -/
def registryInv (gs : GlobalState) : Prop :=
  gs.signature_count = gs.signature_data.length ∧
  gs.signature_data.length ≤ MAX_SIGNATURES + 1 ∧
  (gs.signature_data.map Prod.fst).Nodup

theorem filter_ne_of_not_mem (a : Nat) :
    ∀ l : List (Nat × SignatureAddresses), a ∉ l.map Prod.fst →
      l.filter (fun kv => decide (kv.1 ≠ a)) = l := by
  intro l
  induction l with
  | nil =>
    intro _
    rfl
  | cons kv t ih =>
    intro h
    simp only [List.map_cons, List.mem_cons] at h
    push_neg at h
    rw [List.filter_cons, if_pos (decide_eq_true (Ne.symm h.1))]
    rw [ih h.2]

theorem removeKeys_data_eq_drop :
    ∀ (k : Nat) (l : List (Nat × SignatureAddresses)),
      (l.map Prod.fst).Nodup →
      ((l.map Prod.fst).take k).foldl
        (fun d s => d.filter (fun kv => decide (kv.1 ≠ s))) l = l.drop k := by
  intro k
  induction k with
  | zero =>
    intro l _
    rfl
  | succ j ih =>
    intro l hnd
    cases l with
    | nil => rfl
    | cons kv t =>
      simp only [List.map_cons, List.take_succ_cons, List.foldl_cons,
        List.drop_succ_cons]
      simp only [List.map_cons, List.nodup_cons] at hnd
      have hfilter : (kv :: t).filter (fun x => decide (x.1 ≠ kv.1)) = t := by
        rw [List.filter_cons, if_neg (by simp)]
        exact filter_ne_of_not_mem kv.1 t hnd.1
      rw [hfilter]
      exact ih t hnd.2

theorem cleanup_foldl_spec :
    ∀ (keys : List Nat) (acc : GlobalState),
      (keys.foldl
        (fun acc s =>
          { acc with
            signature_data :=
              acc.signature_data.filter (fun kv => decide (kv.1 ≠ s))
            signature_count := acc.signature_count - 1 }) acc) =
      { acc with
        signature_data := keys.foldl
          (fun d s => d.filter (fun kv => decide (kv.1 ≠ s)))
          acc.signature_data
        signature_count := acc.signature_count - keys.length } := by
  intro keys
  induction keys with
  | nil =>
    intro acc
    rfl
  | cons k ks ih =>
    intro acc
    simp only [List.foldl_cons, List.length_cons]
    rw [ih]
    dsimp only
    have hc : acc.signature_count - 1 - ks.length =
        acc.signature_count - (ks.length + 1) := by omega
    rw [hc]

theorem find?_isSome_iff_mem (l : List (Nat × SignatureAddresses)) (s : Nat) :
    (l.find? (fun kv => decide (kv.1 = s))).isSome = true ↔
      s ∈ l.map Prod.fst := by
  rw [List.find?_isSome]
  constructor
  · rintro ⟨kv, hm, hp⟩
    rw [List.mem_map]
    exact ⟨kv, hm, by simpa using hp.symm⟩
  · intro hm
    rw [List.mem_map] at hm
    obtain ⟨kv, hm, he⟩ := hm
    exact ⟨kv, hm, by simp [he]⟩

theorem maybe_cleanup_evicts (gs : GlobalState)
    (hc : gs.signature_count = gs.signature_data.length)
    (hnd : (gs.signature_data.map Prod.fst).Nodup)
    (hgt : MAX_SIGNATURES < gs.signature_count) :
    maybe_cleanup gs =
      { gs with
        generation := gs.generation + 1
        signature_data := gs.signature_data.drop CLEANUP_BATCH_SIZE
        signature_count := gs.signature_count - CLEANUP_BATCH_SIZE } := by
  simp only [maybe_cleanup]
  rw [if_neg (by omega)]
  rw [if_neg (by rw [List.length_map]; omega)]
  try dsimp only
  rw [cleanup_foldl_spec]
  try dsimp only
  rw [removeKeys_data_eq_drop CLEANUP_BATCH_SIZE gs.signature_data hnd]
  rw [List.length_take, List.length_map]
  have hmin : min CLEANUP_BATCH_SIZE gs.signature_data.length =
      CLEANUP_BATCH_SIZE := by
    simp only [MAX_SIGNATURES, CLEANUP_BATCH_SIZE] at *
    omega
  rw [hmin]

theorem maybe_cleanup_inv (gs : GlobalState) (h : registryInv gs) :
    registryInv (maybe_cleanup gs) ∧
    (maybe_cleanup gs).signature_data.length ≤ MAX_SIGNATURES := by
  obtain ⟨hc, hb, hnd⟩ := h
  by_cases hle : gs.signature_count ≤ MAX_SIGNATURES
  · have hid : maybe_cleanup gs = gs := by
      simp only [maybe_cleanup]
      rw [if_pos hle]
    rw [hid]
    exact ⟨⟨hc, hb, hnd⟩, by omega⟩
  · have hev := maybe_cleanup_evicts gs hc hnd (by omega)
    have hdata : (maybe_cleanup gs).signature_data =
        gs.signature_data.drop CLEANUP_BATCH_SIZE := by rw [hev]
    have hcount : (maybe_cleanup gs).signature_count =
        gs.signature_count - CLEANUP_BATCH_SIZE := by rw [hev]
    refine ⟨⟨?_, ?_, ?_⟩, ?_⟩
    · rw [hcount, hdata, List.length_drop]
      omega
    · rw [hdata, List.length_drop]
      omega
    · rw [hdata, List.map_drop]
      exact List.Nodup.sublist (List.drop_sublist _ _) hnd
    · rw [hdata, List.length_drop]
      simp only [MAX_SIGNATURES, CLEANUP_BATCH_SIZE] at hb ⊢
      omega

theorem add_dev_address_inv (gs : GlobalState) (signature : Nat)
    (address : Pubkey) (h : registryInv gs) :
    registryInv (add_dev_address gs signature address) := by
  obtain ⟨⟨hc, hb, hnd⟩, hle⟩ := maybe_cleanup_inv gs h
  simp only [add_dev_address]
  by_cases hf : ((maybe_cleanup gs).signature_data.find?
      (fun kv => decide (kv.1 = signature))).isSome = true
  · rw [if_pos hf]
    have hkeys : (((maybe_cleanup gs).signature_data.map (fun kv =>
        if kv.1 = signature then
          (kv.1, { kv.2 with
                   dev_addresses := insertSet address kv.2.dev_addresses })
        else kv)).map Prod.fst) =
          (maybe_cleanup gs).signature_data.map Prod.fst := by
      rw [List.map_map]
      refine List.map_congr_left ?_
      intro kv _
      by_cases hkv : kv.1 = signature <;> simp [hkv]
    refine ⟨by simpa using hc, by simp only [List.length_map]; omega, ?_⟩
    rw [hkeys]
    exact hnd
  · rw [if_neg hf]
    have hmem : signature ∉ (maybe_cleanup gs).signature_data.map Prod.fst := by
      rw [← find?_isSome_iff_mem]
      simpa using hf
    refine ⟨?_, ?_, ?_⟩
    · simp only [List.length_append, List.length_cons, List.length_nil]
      omega
    · simp only [List.length_append, List.length_cons, List.length_nil]
      omega
    · rw [List.map_append]
      rw [List.nodup_append]
      refine ⟨hnd, by simp, ?_⟩
      intro x hx hx'
      simp only [List.map_cons, List.map_nil, List.mem_cons,
        List.not_mem_nil] at hx'
      rcases hx' with rfl | hfalse
      · exact hmem hx
      · exact hfalse

theorem add_bonk_dev_address_inv (gs : GlobalState) (signature : Nat)
    (address : Pubkey) (h : registryInv gs) :
    registryInv (add_bonk_dev_address gs signature address) := by
  obtain ⟨⟨hc, hb, hnd⟩, hle⟩ := maybe_cleanup_inv gs h
  simp only [add_bonk_dev_address]
  by_cases hf : ((maybe_cleanup gs).signature_data.find?
      (fun kv => decide (kv.1 = signature))).isSome = true
  · rw [if_pos hf]
    have hkeys : (((maybe_cleanup gs).signature_data.map (fun kv =>
        if kv.1 = signature then
          (kv.1, { kv.2 with
                   bonk_dev_addresses :=
                     insertSet address kv.2.bonk_dev_addresses })
        else kv)).map Prod.fst) =
          (maybe_cleanup gs).signature_data.map Prod.fst := by
      rw [List.map_map]
      refine List.map_congr_left ?_
      intro kv _
      by_cases hkv : kv.1 = signature <;> simp [hkv]
    refine ⟨by simpa using hc, by simp only [List.length_map]; omega, ?_⟩
    rw [hkeys]
    exact hnd
  · rw [if_neg hf]
    have hmem : signature ∉ (maybe_cleanup gs).signature_data.map Prod.fst := by
      rw [← find?_isSome_iff_mem]
      simpa using hf
    refine ⟨?_, ?_, ?_⟩
    · simp only [List.length_append, List.length_cons, List.length_nil]
      omega
    · simp only [List.length_append, List.length_cons, List.length_nil]
      omega
    · rw [List.map_append]
      rw [List.nodup_append]
      refine ⟨hnd, by simp, ?_⟩
      intro x hx hx'
      simp only [List.map_cons, List.map_nil, List.mem_cons,
        List.not_mem_nil] at hx'
      rcases hx' with rfl | hfalse
      · exact hmem hx
      · exact hfalse

theorem registryInv_run (ops : List RegistryOp) :
    registryInv (runRegistryOps ops) := by
  have hstep : ∀ (l : List RegistryOp) (gs : GlobalState), registryInv gs →
      registryInv (l.foldl registryStep gs) := by
    intro l
    induction l with
    | nil =>
      intro gs h
      exact h
    | cons op t ih =>
      intro gs h
      rw [List.foldl_cons]
      refine ih _ ?_
      cases op with
      | addDev s a => exact add_dev_address_inv gs s a h
      | addBonkDev s a => exact add_bonk_dev_address_inv gs s a h
  exact hstep ops GlobalState.initial ⟨rfl, by simp [GlobalState.initial], by simp [GlobalState.initial]⟩

/-- C9: under any sequence of `add_dev_address` / `add_bonk_dev_address`
    operations the registry count tracks the retained-signature number,
    which never exceeds `MAX_SIGNATURES` by more than one cleanup batch
    (sequentially it stays within `MAX_SIGNATURES + 1`); when an insert
    finds the count above the bound, the cleanup winner bumps the
    generation counter and evicts exactly `CLEANUP_BATCH_SIZE` entries
    before the insert completes; and lookups for evicted or never-inserted
    signatures return `false` rather than failing. -/
theorem c9_registry_bounded (ops : List RegistryOp) :
    ((runRegistryOps ops).signature_count =
        (runRegistryOps ops).signature_data.length ∧
      (runRegistryOps ops).signature_data.length ≤
        MAX_SIGNATURES + CLEANUP_BATCH_SIZE) ∧
    (∀ signature address,
      signature ∉ (runRegistryOps ops).signature_data.map Prod.fst →
      is_dev_address_in_signature (runRegistryOps ops) signature address
        = false ∧
      is_bonk_dev_address_in_signature (runRegistryOps ops) signature address
        = false) ∧
    (∀ gs : GlobalState,
      gs.signature_count = gs.signature_data.length →
      (gs.signature_data.map Prod.fst).Nodup →
      MAX_SIGNATURES < gs.signature_count →
      (maybe_cleanup gs).signature_data =
        gs.signature_data.drop CLEANUP_BATCH_SIZE ∧
      (maybe_cleanup gs).signature_count =
        gs.signature_count - CLEANUP_BATCH_SIZE ∧
      (maybe_cleanup gs).generation = gs.generation + 1) := by
  obtain ⟨hc, hb, hnd⟩ := registryInv_run ops
  refine ⟨⟨hc, by simp only [MAX_SIGNATURES, CLEANUP_BATCH_SIZE] at *; omega⟩,
    ?_, ?_⟩
  · intro signature address hmem
    have hf : (runRegistryOps ops).signature_data.find?
        (fun kv => decide (kv.1 = signature)) = none := by
      cases hfind : (runRegistryOps ops).signature_data.find?
          (fun kv => decide (kv.1 = signature)) with
      | none => rfl
      | some kv =>
        exfalso
        apply hmem
        rw [← find?_isSome_iff_mem, hfind]
        rfl
    constructor
    · simp only [is_dev_address_in_signature, hf]
    · simp only [is_bonk_dev_address_in_signature, hf]
  · intro gs hgc hgnd hggt
    have hev := maybe_cleanup_evicts gs hgc hgnd hggt
    exact ⟨by rw [hev], by rw [hev], by rw [hev]⟩

/-- A full registry state: `MAX_SIGNATURES + 1` distinct signatures, the
    shape the sequential insert path hands to the cleanup. -/
def fullRegistry : GlobalState :=
  { signature_data := (List.range (MAX_SIGNATURES + 1)).map
      (fun i => (i, { dev_addresses := [], bonk_dev_addresses := [] }))
    signature_count := MAX_SIGNATURES + 1
    generation := 0 }

/-- Witness for C9: after one insert the bound holds and a miss lookup is
    `false`; on the full registry the cleanup drops exactly one batch. -/
theorem c9_registry_bounded_witness :
    (runRegistryOps [RegistryOp.addDev 1 5]).signature_data.length ≤
      MAX_SIGNATURES + CLEANUP_BATCH_SIZE ∧
    is_dev_address_in_signature (runRegistryOps [RegistryOp.addDev 1 5]) 2 5
      = false ∧
    (maybe_cleanup fullRegistry).signature_data =
      fullRegistry.signature_data.drop CLEANUP_BATCH_SIZE :=
  ⟨(c9_registry_bounded [RegistryOp.addDev 1 5]).1.2,
   ((c9_registry_bounded [RegistryOp.addDev 1 5]).2.1 2 5 (by decide)).1,
   ((c9_registry_bounded []).2.2 fullRegistry
      (by simp [fullRegistry])
      (by simp only [fullRegistry, List.map_map]
          simpa [Function.comp_def] using List.nodup_range (MAX_SIGNATURES + 1))
      (by simp [fullRegistry, MAX_SIGNATURES])).1⟩

/-- Swap mints extracted at scan position `i`. -/
def swapAt (events : List DexEvent) (i : Nat) : Option (Pubkey × Pubkey) :=
  (events.get? i).bind extract_swap_mints

/-- `from_mint` at position `i`. -/
def fromAt (events : List DexEvent) (i : Nat) : Option Pubkey :=
  (swapAt events i).map Prod.fst

/-- `to_mint` at position `i`. -/
def toAt (events : List DexEvent) (i : Nat) : Option Pubkey :=
  (swapAt events i).map Prod.snd

/-- Spec-side (following the claim's words): positions `l..u` are all
    resolved swaps and consecutive positions chain `to_mint = from_mint`. -/
def ChainedSeg (events : List DexEvent) (l u : Nat) : Prop :=
  (∀ i, l ≤ i → i ≤ u → (swapAt events i).isSome = true) ∧
  (∀ i, l ≤ i → i < u → toAt events i = fromAt events (i + 1))

/-- Spec-side (following the claim's words): a maximal chained segment of
    length at least two whose first `from_mint` equals its last `to_mint`,
    not extendable by a chained swap on either side. -/
def ClosedMaxSeg (events : List DexEvent) (l u : Nat) : Prop :=
  l < u ∧ u < events.length ∧ ChainedSeg events l u ∧
  fromAt events l = toAt events u ∧
  (l = 0 ∨ swapAt events (l - 1) = none ∨
    toAt events (l - 1) ≠ fromAt events l) ∧
  (u + 1 = events.length ∨ swapAt events (u + 1) = none ∨
    toAt events u ≠ fromAt events (u + 1))

/-- Spec-side: position `j` lies in some closed maximal segment. -/
def MarkedIdx (events : List DexEvent) (j : Nat) : Prop :=
  ∃ l u, ClosedMaxSeg events l u ∧ l ≤ j ∧ j ≤ u

/-- Positions covered by segments that end before scan position `s`. -/
def MarkedBefore (events : List DexEvent) (s j : Nat) : Prop :=
  ∃ l u, ClosedMaxSeg events l u ∧ u < s ∧ l ≤ j ∧ j ≤ u

theorem setArbFlag_idem (ev : DexEvent) :
    setArbFlag (setArbFlag ev) = setArbFlag ev := by
  cases ev <;> rfl

theorem mark_arb_segment_short (events : List DexEvent) (legs : List MintLeg)
    (h : legs.length < 2) : mark_arb_segment events legs = events := by
  simp only [mark_arb_segment]
  rw [if_pos h]

theorem mark_arb_segment_open (events : List DexEvent) (legs : List MintLeg)
    (h2 : ¬legs.length < 2) (fl ll : MintLeg) (hh : legs.head? = some fl)
    (hl : legs.getLast? = some ll) (hne : fl.from_mint ≠ ll.to_mint) :
    mark_arb_segment events legs = events := by
  simp only [mark_arb_segment]
  rw [if_neg h2]
  simp only [hh, hl]
  rw [if_pos hne]

theorem mark_arb_segment_qual_get? (events : List DexEvent)
    (legs : List MintLeg) (h2 : ¬legs.length < 2) (fl ll : MintLeg)
    (hh : legs.head? = some fl) (hl : legs.getLast? = some ll)
    (hcl : fl.from_mint = ll.to_mint) (j : Nat) :
    (mark_arb_segment events legs).get? j =
      if j ∈ legs.map MintLeg.event_index then
        (events.get? j).map setArbFlag
      else events.get? j := by
  simp only [mark_arb_segment]
  rw [if_neg h2]
  simp only [hh, hl]
  rw [if_neg (by simp [hcl])]
  have hfm : legs.foldl
        (fun evs leg => modifyAt setArbFlag leg.event_index evs) events =
      (legs.map MintLeg.event_index).foldl
        (fun evs i => modifyAt setArbFlag i evs) events := by
    rw [List.foldl_map]
  rw [hfm]
  exact foldl_modifyAt_get? setArbFlag setArbFlag_idem _ events j

theorem mark_arb_segment_get?_not_mem (events : List DexEvent)
    (legs : List MintLeg) (j : Nat)
    (hj : j ∉ legs.map MintLeg.event_index) :
    (mark_arb_segment events legs).get? j = events.get? j := by
  simp only [mark_arb_segment]
  by_cases h2 : legs.length < 2
  · rw [if_pos h2]
  · rw [if_neg h2]
    cases hh : legs.head? with
    | none => simp
    | some fl =>
      cases hl : legs.getLast? with
      | none => simp
      | some ll =>
        simp only
        by_cases hne : fl.from_mint ≠ ll.to_mint
        · rw [if_pos hne]
        · rw [if_neg hne]
          have hfm : legs.foldl
                (fun evs leg => modifyAt setArbFlag leg.event_index evs)
                events =
              (legs.map MintLeg.event_index).foldl
                (fun evs i => modifyAt setArbFlag i evs) events := by
            rw [List.foldl_map]
          rw [hfm]
          rw [foldl_modifyAt_get? setArbFlag setArbFlag_idem _ events j]
          rw [if_neg hj]

theorem closedMaxSeg_unique (events : List DexEvent) (s e : Nat)
    (hch : ChainedSeg events s e) (he : e < events.length)
    (hright : e + 1 = events.length ∨ swapAt events (e + 1) = none ∨
      toAt events e ≠ fromAt events (e + 1))
    (hleft : s = 0 ∨ swapAt events (s - 1) = none ∨
      toAt events (s - 1) ≠ fromAt events s) :
    ∀ l u, ClosedMaxSeg events l u → s ≤ u → u ≤ e → l = s ∧ u = e := by
  intro l u hcms hsu hue
  obtain ⟨hlu, hulen, hch', hclosed, hlmax, hrmax⟩ := hcms
  have hue2 : u = e := by
    by_contra hne
    have hult : u < e := by omega
    have hsome : (swapAt events (u + 1)).isSome = true :=
      hch.1 (u + 1) (by omega) (by omega)
    have hlink : toAt events u = fromAt events (u + 1) :=
      hch.2 u (by omega) (by omega)
    rcases hrmax with h | h | h
    · omega
    · rw [h] at hsome
      simp at hsome
    · exact h hlink
  subst hue2
  refine ⟨?_, rfl⟩
  by_contra hne
  rcases Nat.lt_or_ge l s with hls | hls
  · have hs1 : 1 ≤ s := by omega
    have hsome : (swapAt events (s - 1)).isSome = true :=
      hch'.1 (s - 1) (by omega) (by omega)
    have hlink : toAt events (s - 1) = fromAt events s := by
      have hstep := hch'.2 (s - 1) (by omega) (by omega)
      rwa [Nat.sub_add_cancel hs1] at hstep
    rcases hleft with h | h | h
    · omega
    · rw [h] at hsome
      simp at hsome
    · exact h hlink
  · have hlt : s < l := by omega
    have hl1 : 1 ≤ l := by omega
    have hsome : (swapAt events (l - 1)).isSome = true :=
      hch.1 (l - 1) (by omega) (by omega)
    have hlink : toAt events (l - 1) = fromAt events l := by
      have hstep := hch.2 (l - 1) (by omega) (by omega)
      rwa [Nat.sub_add_cancel hl1] at hstep
    rcases hlmax with h | h | h
    · omega
    · rw [h] at hsome
      simp at hsome
    · exact h hlink

/-- The scan invariant of the `markGo` loop: the collected legs cover
    positions `s .. k - 1` as a chained swap run starting at a segment
    boundary, and the threaded list carries flags exactly on the segments
    already flushed. -/
def ScanInv (events : List DexEvent) (legs : List MintLeg) (k : Nat)
    (E : List DexEvent) : Prop :=
  ∃ s, s + legs.length = k ∧
    legs.map MintLeg.event_index = List.range' s legs.length ∧
    (∀ leg ∈ legs, swapAt events leg.event_index =
      some (leg.from_mint, leg.to_mint)) ∧
    (legs ≠ [] → ChainedSeg events s (k - 1)) ∧
    (s = 0 ∨ swapAt events (s - 1) = none ∨
      toAt events (s - 1) ≠ fromAt events s) ∧
    (∀ j, MarkedBefore events s j →
      E.get? j = (events.get? j).map setArbFlag) ∧
    (∀ j, ¬MarkedBefore events s j → E.get? j = events.get? j)

theorem legs_head_spec (events : List DexEvent) (legs : List MintLeg)
    (s k : Nat) (hsk : s + legs.length = k)
    (hmap : legs.map MintLeg.event_index = List.range' s legs.length)
    (hmints : ∀ leg ∈ legs, swapAt events leg.event_index =
      some (leg.from_mint, leg.to_mint))
    (fl : MintLeg) (hh : legs.head? = some fl) :
    fl.event_index = s ∧ fromAt events s = some fl.from_mint := by
  have h1 : (legs.map MintLeg.event_index).head? = some fl.event_index := by
    rw [List.head?_map, hh]
    rfl
  rw [hmap] at h1
  have hidx : fl.event_index = s := by
    cases hlegs : legs.length with
    | zero =>
      rw [hlegs] at h1
      simp [List.range'] at h1
    | succ m =>
      rw [hlegs, List.range'_succ s m 1] at h1
      injection h1 with h1
      exact h1.symm
  refine ⟨hidx, ?_⟩
  have hsw := hmints fl (List.mem_of_mem_head? hh)
  rw [hidx] at hsw
  rw [fromAt, hsw]
  rfl

theorem legs_getLast_spec (events : List DexEvent) (legs : List MintLeg)
    (s k : Nat) (hsk : s + legs.length = k)
    (hmap : legs.map MintLeg.event_index = List.range' s legs.length)
    (hmints : ∀ leg ∈ legs, swapAt events leg.event_index =
      some (leg.from_mint, leg.to_mint))
    (ll : MintLeg) (hgl : legs.getLast? = some ll) :
    ll.event_index = k - 1 ∧ toAt events (k - 1) = some ll.to_mint ∧
      1 ≤ legs.length := by
  have hne : legs ≠ [] := by
    rintro rfl
    exact Option.noConfusion hgl
  have hlen1 : 1 ≤ legs.length := by
    cases legs with
    | nil => exact absurd rfl hne
    | cons a t => simp
  have h1 : (legs.map MintLeg.event_index).getLast? =
      some ll.event_index := by
    rw [List.getLast?_map, hgl]
    rfl
  rw [hmap] at h1
  have hidx : ll.event_index = k - 1 := by
    cases hlegs : legs.length with
    | zero => omega
    | succ m =>
      rw [hlegs] at h1
      have hc : List.range' s (m + 1) = List.range' s m ++ [s + 1 * m] :=
        List.range'_concat s m
      rw [hc, List.getLast?_concat] at h1
      injection h1 with h1
      omega
  refine ⟨hidx, ?_, hlen1⟩
  have hsw := hmints ll (List.mem_of_mem_getLast? hgl)
  rw [hidx] at hsw
  rw [toAt, hsw]
  rfl

theorem flush_spec (events : List DexEvent) (legs : List MintLeg) (k : Nat)
    (E : List DexEvent) (hk : k ≤ events.length)
    (hinv : ScanInv events legs k E)
    (hbreak : k = events.length ∨ swapAt events k = none ∨
      toAt events (k - 1) ≠ fromAt events k) :
    (∀ j, MarkedBefore events k j →
      (mark_arb_segment E legs).get? j = (events.get? j).map setArbFlag) ∧
    (∀ j, ¬MarkedBefore events k j →
      (mark_arb_segment E legs).get? j = events.get? j) := by
  obtain ⟨s, hsk, hmap, hmints, hchain, hleft, hEm, hEu⟩ := hinv
  by_cases hne : legs = []
  · subst hne
    rw [mark_arb_segment_short E [] (by simp)]
    simp only [List.length_nil, Nat.add_zero] at hsk
    subst hsk
    exact ⟨hEm, hEu⟩
  · have hlen1 : 1 ≤ legs.length := by
      cases legs with
      | nil => exact absurd rfl hne
      | cons a t => simp
    have hk1 : 1 ≤ k := by omega
    obtain ⟨fl, hh⟩ : ∃ fl, legs.head? = some fl := by
      cases legs with
      | nil => exact absurd rfl hne
      | cons a t => exact ⟨a, rfl⟩
    obtain ⟨ll, hgl⟩ : ∃ ll, legs.getLast? = some ll := by
      cases legs with
      | nil => exact absurd rfl hne
      | cons a t =>
        exact ⟨(a :: t).getLast (by simp), List.getLast?_eq_getLast _ _⟩
    obtain ⟨hfl_idx, hfroms⟩ :=
      legs_head_spec events legs s k hsk hmap hmints fl hh
    obtain ⟨hll_idx, htok, -⟩ :=
      legs_getLast_spec events legs s k hsk hmap hmints ll hgl
    have hchain' : ChainedSeg events s (k - 1) := hchain hne
    have hklen : k - 1 < events.length := by omega
    have hright : (k - 1) + 1 = events.length ∨
        swapAt events ((k - 1) + 1) = none ∨
        toAt events (k - 1) ≠ fromAt events ((k - 1) + 1) := by
      rw [Nat.sub_add_cancel hk1]
      exact hbreak
    have huniq := closedMaxSeg_unique events s (k - 1) hchain' hklen hright hleft
    have hmem : ∀ j, j ∈ legs.map MintLeg.event_index ↔
        s ≤ j ∧ j < s + legs.length := by
      intro j
      rw [hmap]
      exact List.mem_range'_1
    by_cases hqual2 : legs.length < 2
    · rw [mark_arb_segment_short E legs hqual2]
      have hmb : ∀ j, MarkedBefore events k j ↔ MarkedBefore events s j := by
        intro j
        constructor
        · rintro ⟨l, u, hcms, hus, hlj, hju⟩
          rcases Nat.lt_or_ge u s with h | h
          · exact ⟨l, u, hcms, h, hlj, hju⟩
          · obtain ⟨hl', hu'⟩ := huniq l u hcms h (by omega)
            have hlu := hcms.1
            omega
        · rintro ⟨l, u, hcms, hus, hlj, hju⟩
          exact ⟨l, u, hcms, by omega, hlj, hju⟩
      exact ⟨fun j hj => hEm j ((hmb j).mp hj),
             fun j hj => hEu j (fun h => hj ((hmb j).mpr h))⟩
    · by_cases hcl : fl.from_mint = ll.to_mint
      · have hcms : ClosedMaxSeg events s (k - 1) := by
          refine ⟨by omega, hklen, hchain', ?_, hleft, hright⟩
          rw [hfroms, htok, hcl]
        constructor
        · intro j hj
          obtain ⟨l, u, hcmsj, hus, hlj, hju⟩ := hj
          rcases Nat.lt_or_ge u s with h | h
          · rw [mark_arb_segment_qual_get? E legs hqual2 fl ll hh hgl hcl j,
              if_neg (fun hmemj => by
                obtain ⟨h1, h2⟩ := (hmem j).mp hmemj
                omega)]
            exact hEm j ⟨l, u, hcmsj, h, hlj, hju⟩
          · obtain ⟨hl', hu'⟩ := huniq l u hcmsj h (by omega)
            rw [mark_arb_segment_qual_get? E legs hqual2 fl ll hh hgl hcl j,
              if_pos ((hmem j).mpr ⟨by omega, by omega⟩)]
            have hnm : ¬MarkedBefore events s j := by
              rintro ⟨l2, u2, hcms2, hus2, hlj2, hju2⟩
              omega
            rw [hEu j hnm]
        · intro j hj
          have hnotin : j ∉ legs.map MintLeg.event_index := by
            intro hmemj
            obtain ⟨h1, h2⟩ := (hmem j).mp hmemj
            exact hj ⟨s, k - 1, hcms, by omega, by omega, by omega⟩
          rw [mark_arb_segment_qual_get? E legs hqual2 fl ll hh hgl hcl j,
            if_neg hnotin]
          refine hEu j (fun hmb => hj ?_)
          obtain ⟨l, u, hcms2, hus, hlj, hju⟩ := hmb
          exact ⟨l, u, hcms2, by omega, hlj, hju⟩
      · rw [mark_arb_segment_open E legs hqual2 fl ll hh hgl hcl]
        have hmb : ∀ j, MarkedBefore events k j ↔ MarkedBefore events s j := by
          intro j
          constructor
          · rintro ⟨l, u, hcms2, hus, hlj, hju⟩
            rcases Nat.lt_or_ge u s with h | h
            · exact ⟨l, u, hcms2, h, hlj, hju⟩
            · obtain ⟨hl', hu'⟩ := huniq l u hcms2 h (by omega)
              exfalso
              have hclosed := hcms2.2.2.2.1
              rw [hl', hu'] at hclosed
              rw [hfroms, htok] at hclosed
              injection hclosed with hclosed
              exact hcl hclosed
          · rintro ⟨l, u, hcms2, hus, hlj, hju⟩
            exact ⟨l, u, hcms2, by omega, hlj, hju⟩
        exact ⟨fun j hj => hEm j ((hmb j).mp hj),
               fun j hj => hEu j (fun h => hj ((hmb j).mpr h))⟩

theorem markGo_run (events : List DexEvent)
    (hinner : ∀ ev ∈ events, ev.metadata.inner_index.isSome = true) :
    ∀ (n k : Nat) (legs : List MintLeg) (E : List DexEvent),
    k + n = events.length →
    ScanInv events legs k E →
    (∀ j, MarkedIdx events j →
      (markGo E legs k n).get? j = (events.get? j).map setArbFlag) ∧
    (∀ j, ¬MarkedIdx events j →
      (markGo E legs k n).get? j = events.get? j) := by
  intro n
  induction n with
  | zero =>
    intro k legs E hkn hinv
    have hflush := flush_spec events legs k E (by omega) hinv
      (Or.inl (by omega))
    have hiff : ∀ j, MarkedIdx events j ↔ MarkedBefore events k j := by
      intro j
      constructor
      · rintro ⟨l, u, hcms, hlj, hju⟩
        exact ⟨l, u, hcms, by have := hcms.2.1; omega, hlj, hju⟩
      · rintro ⟨l, u, hcms, -, hlj, hju⟩
        exact ⟨l, u, hcms, hlj, hju⟩
    simp only [markGo]
    exact ⟨fun j hj => hflush.1 j ((hiff j).mp hj),
           fun j hj => hflush.2 j (fun h => hj ((hiff j).mpr h))⟩
  | succ m ih =>
    intro k legs E hkn hinv
    have hklen : k < events.length := by omega
    obtain ⟨ev₀, hev₀⟩ : ∃ ev, events.get? k = some ev := by
      cases hg : events.get? k with
      | none =>
        rw [List.get?_eq_none] at hg
        omega
      | some ev => exact ⟨ev, rfl⟩
    have hmem₀ : ev₀ ∈ events := List.get?_mem hev₀
    obtain ⟨s, hsk, hmap, hmints, hchain, hleft, hEm, hEu⟩ := hinv
    have hnmbk : ¬MarkedBefore events s k := by
      rintro ⟨l, u, hcms, hus, hlj, hju⟩
      omega
    have hEk : E.get? k = some ev₀ := by
      rw [hEu k hnmbk]
      exact hev₀
    have hin : ev₀.metadata.inner_index.isNone = false := by
      have hi := hinner ev₀ hmem₀
      cases hii : ev₀.metadata.inner_index with
      | none =>
        rw [hii] at hi
        simp at hi
      | some v => rfl
    have hswapk : swapAt events k = extract_swap_mints ev₀ := by
      rw [swapAt, hev₀]
      rfl
    cases hx : extract_swap_mints ev₀ with
    | none =>
      have hstep : markGo E legs k (m + 1) =
          markGo (mark_arb_segment E legs) [] (k + 1) m := by
        simp only [markGo, hEk, hin, Bool.false_eq_true, if_false, hx]
      rw [hstep]
      have hflush := flush_spec events legs k E (by omega)
        ⟨s, hsk, hmap, hmints, hchain, hleft, hEm, hEu⟩
        (Or.inr (Or.inl (by rw [hswapk, hx])))
      refine ih (k + 1) [] (mark_arb_segment E legs) (by omega) ?_
      refine ⟨k + 1, by simp, by simp [List.range'], by simp,
        fun h => absurd rfl h, ?_, ?_, ?_⟩
      · right
        left
        simp only [Nat.add_sub_cancel]
        rw [hswapk, hx]
      · intro j hj
        apply hflush.1 j
        obtain ⟨l, u, hcms, hus, hlj, hju⟩ := hj
        have huk : u ≠ k := by
          rintro rfl
          have hsm := hcms.2.2.1.1 u (by omega) (Nat.le_refl u)
          rw [hswapk, hx] at hsm
          simp at hsm
        exact ⟨l, u, hcms, by omega, hlj, hju⟩
      · intro j hj
        apply hflush.2 j
        rintro ⟨l, u, hcms, hus, hlj, hju⟩
        exact hj ⟨l, u, hcms, by omega, hlj, hju⟩
    | some p =>
      obtain ⟨f, t⟩ := p
      have hfromk : fromAt events k = some f := by
        rw [fromAt, hswapk, hx]
        rfl
      cases hgl : legs.getLast? with
      | none =>
        have hlegs_nil : legs = [] := by
          cases legs with
          | nil => rfl
          | cons a tl =>
            rw [List.getLast?_eq_getLast (a :: tl) (by simp)] at hgl
            exact Option.noConfusion hgl
        subst hlegs_nil
        simp only [List.length_nil, Nat.add_zero] at hsk
        subst hsk
        have hstep : markGo E [] s (m + 1) =
            markGo E [{ event_index := s, from_mint := f, to_mint := t }]
              (s + 1) m := by
          simp only [markGo, hEk, hin, Bool.false_eq_true, if_false, hx,
            List.getLast?_nil, List.nil_append]
        rw [hstep]
        refine ih (s + 1)
          [{ event_index := s, from_mint := f, to_mint := t }] E
          (by omega) ?_
        refine ⟨s, by simp, by simp [List.range'_succ, List.range'], ?_, ?_,
          ?_, ?_, ?_⟩
        · intro leg hleg
          simp only [List.mem_singleton] at hleg
          subst hleg
          rw [hswapk, hx]
        · intro _
          constructor
          · intro i h1 h2
            have hieq : i = s := by omega
            subst hieq
            rw [hswapk, hx]
            rfl
          · intro i h1 h2
            omega
        · simpa using hleft
        · intro j hj
          exact hEm j hj
        · intro j hj
          exact hEu j hj
      | some ll =>
        have hlegs_ne : legs ≠ [] := by
          rintro rfl
          exact Option.noConfusion hgl
        obtain ⟨hll_idx, htok, hlen1⟩ :=
          legs_getLast_spec events legs s k hsk hmap hmints ll hgl
        have hk1 : 1 ≤ k := by omega
        by_cases hmatch : ll.to_mint ≠ f
        · have hstep : markGo E legs k (m + 1) =
              markGo (mark_arb_segment E legs)
                [{ event_index := k, from_mint := f, to_mint := t }]
                (k + 1) m := by
            simp only [markGo, hEk, hin, Bool.false_eq_true, if_false, hx,
              hgl]
            rw [if_pos hmatch]
          rw [hstep]
          have hbreakm : toAt events (k - 1) ≠ fromAt events k := by
            rw [htok, hfromk]
            intro hcontra
            injection hcontra with hcontra
            exact hmatch hcontra
          have hflush := flush_spec events legs k E (by omega)
            ⟨s, hsk, hmap, hmints, hchain, hleft, hEm, hEu⟩
            (Or.inr (Or.inr hbreakm))
          refine ih (k + 1)
            [{ event_index := k, from_mint := f, to_mint := t }]
            (mark_arb_segment E legs) (by omega) ?_
          refine ⟨k, by simp, by simp [List.range'_succ, List.range'], ?_,
            ?_, ?_, hflush.1, hflush.2⟩
          · intro leg hleg
            simp only [List.mem_singleton] at hleg
            subst hleg
            rw [hswapk, hx]
          · intro _
            constructor
            · intro i h1 h2
              have hieq : i = k := by omega
              subst hieq
              rw [hswapk, hx]
              rfl
            · intro i h1 h2
              omega
          · right
            right
            exact hbreakm
        · have hmeq : ll.to_mint = f := not_not.mp hmatch
          have hstep : markGo E legs k (m + 1) =
              markGo E
                (legs ++ [{ event_index := k, from_mint := f, to_mint := t }])
                (k + 1) m := by
            simp only [markGo, hEk, hin, Bool.false_eq_true, if_false, hx,
              hgl]
            rw [if_neg hmatch]
          rw [hstep]
          refine ih (k + 1)
            (legs ++ [{ event_index := k, from_mint := f, to_mint := t }]) E
            (by omega) ?_
          have hch := hchain hlegs_ne
          refine ⟨s, by simp only [List.length_append, List.length_cons,
              List.length_nil]; omega, ?_, ?_, ?_, hleft, hEm, hEu⟩
          · rw [List.map_append, hmap]
            simp only [List.map_cons, List.map_nil,
              List.length_append, List.length_cons, List.length_nil]
            have hc : List.range' s (legs.length + 1) =
                List.range' s legs.length ++ [s + 1 * legs.length] :=
              List.range'_concat s legs.length
            rw [hc]
            have hke : s + 1 * legs.length = k := by omega
            rw [hke]
          · intro leg hleg
            rw [List.mem_append] at hleg
            rcases hleg with h | h
            · exact hmints leg h
            · simp only [List.mem_singleton] at h
              subst h
              rw [hswapk, hx]
          · intro _
            simp only [Nat.add_sub_cancel]
            constructor
            · intro i h1 h2
              rcases Nat.lt_or_ge i k with h | h
              · exact hch.1 i h1 (by omega)
              · have hieq : i = k := by omega
                subst hieq
                rw [hswapk, hx]
                rfl
            · intro i h1 h2
              rcases Nat.lt_or_ge (i + 1) k with h | h
              · exact hch.2 i h1 (by omega)
              · have hieq : i = k - 1 := by omega
                subst hieq
                rw [Nat.sub_add_cancel hk1, htok, hfromk, hmeq]

theorem markGo_noninner :
    ∀ (n k : Nat) (legs : List MintLeg) (E : List DexEvent) (j : Nat)
      (ev : DexEvent),
    E.get? j = some ev → ev.metadata.inner_index = none →
    (∀ leg ∈ legs, leg.event_index ≠ j) →
    (markGo E legs k n).get? j = some ev := by
  intro n
  induction n with
  | zero =>
    intro k legs E j ev hEj hnone hlegs
    simp only [markGo]
    rw [mark_arb_segment_get?_not_mem E legs j ?_]
    · exact hEj
    · intro hmem
      rw [List.mem_map] at hmem
      obtain ⟨leg, hm, he⟩ := hmem
      exact hlegs leg hm he
  | succ m ih =>
    intro k legs E j ev hEj hnone hlegs
    have hnotmem : j ∉ legs.map MintLeg.event_index := by
      intro hmem
      rw [List.mem_map] at hmem
      obtain ⟨leg, hm, he⟩ := hmem
      exact hlegs leg hm he
    cases hEk : E.get? k with
    | none =>
      simp only [markGo, hEk]
      rw [mark_arb_segment_get?_not_mem E legs j hnotmem]
      exact hEj
    | some evk =>
      simp only [markGo, hEk]
      by_cases hink : evk.metadata.inner_index.isNone = true
      · rw [if_pos hink]
        exact ih (k + 1) legs E j ev hEj hnone hlegs
      · rw [if_neg hink]
        have hkj : k ≠ j := by
          rintro rfl
          rw [hEj] at hEk
          injection hEk with hEk
          subst hEk
          rw [hnone] at hink
          exact hink rfl
        cases hxk : extract_swap_mints evk with
        | none =>
          refine ih (k + 1) [] (mark_arb_segment E legs) j ev ?_ hnone
            (by simp)
          rw [mark_arb_segment_get?_not_mem E legs j hnotmem]
          exact hEj
        | some p =>
          obtain ⟨f, t⟩ := p
          dsimp only
          cases hgl : legs.getLast? with
          | none =>
            dsimp only
            refine ih (k + 1)
              (legs ++ [{ event_index := k, from_mint := f, to_mint := t }])
              E j ev hEj hnone ?_
            intro leg hm
            rw [List.mem_append] at hm
            rcases hm with h | h
            · exact hlegs leg h
            · simp only [List.mem_singleton] at h
              subst h
              exact hkj
          | some ll =>
            dsimp only
            by_cases hmatch : ll.to_mint ≠ f
            · rw [if_pos hmatch]
              refine ih (k + 1)
                [{ event_index := k, from_mint := f, to_mint := t }]
                (mark_arb_segment E legs) j ev ?_ hnone ?_
              · rw [mark_arb_segment_get?_not_mem E legs j hnotmem]
                exact hEj
              · intro leg hm
                simp only [List.mem_singleton] at hm
                subst hm
                exact hkj
            · rw [if_neg hmatch]
              refine ih (k + 1)
                (legs ++ [{ event_index := k, from_mint := f, to_mint := t }])
                E j ev hEj hnone ?_
              intro leg hm
              rw [List.mem_append] at hm
              rcases hm with h | h
              · exact hlegs leg h
              · simp only [List.mem_singleton] at h
                subst h
                exact hkj

/-- C1: on an inner-event batch (every event carries `inner_index = Some`)
    whose events start unflagged, `mark_arb_inner_swap_events` sets
    `is_arb_leg` exactly on the positions covered by maximal chained
    segments of resolved swap events of length at least two that close a
    cycle (`first.from_mint = last.to_mint`); every other position is
    returned unchanged (so keeps `is_arb_leg = false`), any event whose
    flag comes back `true` lies in such a segment, and — for an arbitrary
    event list — an event whose `inner_index` is `None` is never flagged. -/
theorem c1_arb_cycle_marking (events : List DexEvent)
    (hinner : ∀ ev ∈ events, ev.metadata.inner_index.isSome = true)
    (hflag : ∀ ev ∈ events, ev.metadata.is_arb_leg = false) :
    (∀ j, MarkedIdx events j →
      (mark_arb_inner_swap_events events).get? j =
        (events.get? j).map setArbFlag) ∧
    (∀ j, ¬MarkedIdx events j →
      (mark_arb_inner_swap_events events).get? j = events.get? j) ∧
    (∀ j ev, (mark_arb_inner_swap_events events).get? j = some ev →
      ev.metadata.is_arb_leg = true → MarkedIdx events j) ∧
    (∀ (evs : List DexEvent) (j : Nat) (ev : DexEvent),
      evs.get? j = some ev → ev.metadata.inner_index = none →
      (mark_arb_inner_swap_events evs).get? j = some ev) := by
  have hinit : ScanInv events [] 0 events := by
    refine ⟨0, by simp, by simp [List.range'], by simp,
      fun h => absurd rfl h, Or.inl rfl, ?_, fun j _ => rfl⟩
    intro j hj
    obtain ⟨l, u, hcms, hus, hlj, hju⟩ := hj
    omega
  have hrun := markGo_run events hinner events.length 0 [] events
    (by omega) hinit
  refine ⟨?_, ?_, ?_, ?_⟩
  · intro j hj
    simp only [mark_arb_inner_swap_events]
    exact hrun.1 j hj
  · intro j hj
    simp only [mark_arb_inner_swap_events]
    exact hrun.2 j hj
  · intro j ev hev hflagtrue
    by_contra hnm
    have hu := hrun.2 j hnm
    simp only [mark_arb_inner_swap_events] at hev
    rw [hu] at hev
    have hm := List.get?_mem hev
    rw [hflag ev hm] at hflagtrue
    exact Bool.noConfusion hflagtrue
  · intro evs j ev hj hnone
    simp only [mark_arb_inner_swap_events]
    exact markGo_noninner evs.length 0 [] evs j ev hj hnone (by simp)

/-- One inner PumpSwap Buy leg swapping `q` for `b`. -/
def c1Leg (ii : Int) (q b : Pubkey) : DexEvent :=
  DexEvent.PumpSwapBuyEvent { (default : PumpSwapBuyEvent) with
    metadata := { (default : EventMetadata) with inner_index := some ii }
    quote_mint := q
    base_mint := b }

/-- A three-leg inner batch forming the closed cycle `1 → 2 → 3 → 1`. -/
def c1Events : List DexEvent :=
  [c1Leg 0 1 2, c1Leg 1 2 3, c1Leg 2 3 1]

/-- Witness for C1: on the concrete `1 → 2 → 3 → 1` cycle the whole batch
    forms one closed maximal segment and every position gets flagged. -/
theorem c1_arb_cycle_marking_witness :
    (mark_arb_inner_swap_events c1Events).get? 0 =
      (c1Events.get? 0).map setArbFlag ∧
    (mark_arb_inner_swap_events c1Events).get? 1 =
      (c1Events.get? 1).map setArbFlag := by
  have h := c1_arb_cycle_marking c1Events (by decide) (by decide)
  have hcms : ClosedMaxSeg c1Events 0 2 := by
    refine ⟨by decide, by decide, ⟨?_, ?_⟩, by decide, Or.inl rfl,
      Or.inl (by decide)⟩
    · intro i h1 h2
      interval_cases i <;> decide
    · intro i h1 h2
      interval_cases i <;> decide
  exact ⟨h.1 0 ⟨0, 2, hcms, by decide, by decide⟩,
         h.1 1 ⟨0, 2, hcms, by decide, by decide⟩⟩

end SolanaStreamer
